import Mathlib

/-!
Verification development for the Daytona remote-sandbox execution core of this
repository (`daytona-cloud.ts`, `exec.ts`, `parsers.ts`).  The TypeScript
source is shallowly embedded: JS strings become `String`, `Map` becomes an
association list, every remote RPC of the Daytona SDK becomes a field of a
`Remote` oracle returning either a value or a thrown error message, and
`try`/`catch` becomes `Except String`.  All definitions are executable.
-/

/-! ### JS character and string primitives -/

/-- The apostrophe character (written via its code point). -/
def sqChar : Char := Char.ofNat 39

/-- One-character string holding an apostrophe. -/
def sqStr : String := String.mk [sqChar]

/-- JS whitespace test (the ASCII part of the `\s` class and `String.trim`). -/
def isJsWs (c : Char) : Bool :=
  c = ' ' || c = Char.ofNat 9 || c = Char.ofNat 10 || c = Char.ofNat 13 ||
  c = Char.ofNat 11 || c = Char.ofNat 12

/-- Boolean list-prefix test on characters (decidable equality, no BEq). -/
def chPfx : List Char → List Char → Bool
  | [], _ => true
  | _ :: _, [] => false
  | a :: as, b :: bs => a = b && chPfx as bs

/-- `chContains p l` is the JS `l.includes(p)` on character lists. -/
def chContains (p : List Char) : List Char → Bool
  | [] => chPfx p []
  | c :: t => chPfx p (c :: t) || chContains p t

/-- JS `s.startsWith(p)`. -/
def startsWithStr (s p : String) : Bool := chPfx p.data s.data

/-- JS `s.includes(sub)`. -/
def strContains (s sub : String) : Bool := chContains sub.data s.data

/-- JS `String.prototype.trim` (ASCII whitespace model). -/
def jsTrim (s : String) : String :=
  String.mk (((s.data.dropWhile isJsWs).reverse.dropWhile isJsWs).reverse)

/-- Split a character list on a separator character; always non-empty. -/
def splitCharsOn (sep : Char) : List Char → List (List Char)
  | [] => [[]]
  | c :: rest =>
    match splitCharsOn sep rest with
    | [] => if c = sep then [[], []] else [[c]]
    | r :: rs => if c = sep then [] :: r :: rs else (c :: r) :: rs

/-- JS `s.split(sep)` for a one-character separator. -/
def splitOnChar (sep : Char) (s : String) : List String :=
  (splitCharsOn sep s.data).map String.mk

/-- JS `parts.join(" ")` (used for `cmd.join(' ')`). -/
def joinSpace : List String → String
  | [] => ""
  | [x] => x
  | x :: xs => x ++ " " ++ joinSpace xs

/-- Join path components with slashes (posix `path.join` output shape). -/
def joinSlash : List String → String
  | [] => ""
  | [x] => x
  | x :: xs => x ++ "/" ++ joinSlash xs

/-- JS `s.replace(/'/g, "'\\''")`: each apostrophe becomes `'\''`. -/
def escapeSingleQuotes (s : String) : String :=
  String.mk (s.data.flatMap (fun c =>
    if c = sqChar then [sqChar, '\\', sqChar, sqChar] else [c]))

/-- JS `s.substring(0, n)` (character model of code units). -/
def strTake (s : String) (n : Nat) : String := String.mk (s.data.take n)

/-- JS `s.substring(n)`. -/
def strDrop (s : String) (n : Nat) : String := String.mk (s.data.drop n)

/-- Character-list length of a string (model of JS `s.length`). -/
def strLen (s : String) : Nat := s.data.length

/-- Numeric value of a run of leading decimal digits (JS `parseInt` on a
digit-only capture group). -/
def digitsVal (cs : List Char) : Nat :=
  (cs.takeWhile Char.isDigit).foldl (fun a c => 10 * a + (c.toNat - 48)) 0

/-- Decimal rendering of a natural number. -/
def natDec (n : Nat) : String := Nat.repr n

/-- Decimal rendering of an integer (JS `String(number)` for integers). -/
def intDec (i : Int) : String :=
  if i < 0 then "-" ++ Nat.repr i.natAbs else Nat.repr i.natAbs

/-! ### Posix path model (`path.isAbsolute`, `path.join`, `path.relative`,
`path.dirname` as used by the source on posix separators) -/

/-- `path.isAbsolute` (posix). -/
def pIsAbsolute (s : String) : Bool := chPfx ['/'] s.data

/-- Split into non-empty components (`p.split(path.sep).filter(p => p.length > 0)`
and the component view used by normalization). -/
def splitPath (s : String) : List String :=
  ((splitCharsOn '/' s.data).map String.mk).filter (fun c => c ≠ "")

/-- One step of posix path normalization over a stack of components
(absolute-path semantics: excess `..` at the root is dropped). -/
def normStep (stack : List String) (c : String) : List String :=
  if c = "." ∨ c = "" then stack
  else if c = ".." then stack.dropLast
  else stack ++ [c]

/-- Normalize a component list (absolute-path semantics). -/
def normParts (cs : List String) : List String := cs.foldl normStep []

/-- Posix `path.join(root, extra...)` for an absolute `root` and a list of
further components/relative segments, with normalization. -/
def pJoinParts (root : String) (parts : List String) : String :=
  "/" ++ joinSlash (normParts (splitPath root ++ parts.flatMap splitPath))

/-- Posix `path.join(a, b)` for absolute `a`. -/
def pJoin (a b : String) : String := pJoinParts a [b]

/-- Length of the common prefix of two component lists. -/
def commonPrefLen : List String → List String → Nat
  | a :: as, b :: bs => if a = b then commonPrefLen as bs + 1 else 0
  | _, _ => 0

/-- Posix `path.relative(from, to)` for absolute arguments. -/
def pRelative (f t : String) : String :=
  let fp := normParts (splitPath f)
  let tp := normParts (splitPath t)
  let c := commonPrefLen fp tp
  joinSlash (List.replicate (fp.length - c) ".." ++ tp.drop c)

/-- Posix `path.dirname`. -/
def pDirname (s : String) : String :=
  let cs := s.data
  let hasRoot := chPfx ['/'] cs
  let r := ((cs.reverse.dropWhile (fun c => c = '/')).dropWhile
    (fun c => c ≠ '/')).drop 1
  if r = [] then (if hasRoot then "/" else ".") else String.mk r.reverse

/-- Posix `path.basename` (used only to name uploaded `File` objects). -/
def pBasename (s : String) : String :=
  String.mk (((s.data.reverse.dropWhile (fun c => c = '/')).takeWhile
    (fun c => c ≠ '/')).reverse)

/-- JS `Array.prototype.findIndex` (`-1` when nothing matches). -/
def jsFindIndex (p : String → Bool) (l : List String) : Int :=
  match l.findIdx? p with
  | some i => Int.ofNat i
  | none => -1

/-- JS `Array.prototype.slice(start)` including negative `start`. -/
def jsSlice (l : List String) (i : Int) : List String :=
  if i < 0 then l.drop (l.length - min l.length i.natAbs) else l.drop i.toNat

/-- Association-list lookup modelling `Map.get`. -/
def mapGet (m : List (String × String)) (k : String) : Option String :=
  (m.find? (fun p => p.1 = k)).map (fun p => p.2)

/-- Association-list update modelling `Map.set`. -/
def mapSet (m : List (String × String)) (k v : String) : List (String × String) :=
  if m.any (fun p => p.1 = k) then
    m.map (fun p => if p.1 = k then (k, v) else p)
  else m ++ [(k, v)]

/-! ### Data model of the provider singleton (`DaytonaSandboxProvider`) -/

/-- Result of an awaited remote RPC: a value, or a thrown error's message. -/
inductive RpcRes (α : Type) where
  | ok (val : α)
  | err (msg : String)
deriving DecidableEq, Repr

/-- Response shape of `process.executeCommand` (only the fields the source
reads: `result` via optional chaining). -/
structure CmdResponse where
  result : Option String
deriving DecidableEq, Repr

/-- Response shape of `process.executeSessionCommand`. -/
structure SessionCmdResponse where
  output : Option String
  error : Option String
  exitCode : Option Int
  cmdId : Option String
deriving DecidableEq, Repr

/-- Preview link info returned by `getPreviewLink`. -/
structure PreviewInfo where
  url : String
  token : String
deriving DecidableEq, Repr

/-- Oracle for the remote binding (`this.sandbox`, `this.daytona`):
deterministic response of each RPC, keyed by its arguments. -/
structure Remote where
  executeCommand : String → RpcRes CmdResponse
  createSession : String → RpcRes Unit
  executeSessionCommand : String → String → Option Int → RpcRes SessionCmdResponse
  getSessionCommandLogs : String → String → RpcRes String
  fsCreateFolder : String → RpcRes Unit
  fsUploadFile : String → String → RpcRes Unit
  fsDeleteFile : String → RpcRes Unit
  getPreviewLinkFn : Option (Nat → RpcRes PreviewInfo)
  sandboxId : Option String

/-- Observable RPC calls issued during an operation (the trace). -/
inductive Ev where
  | cmd (c : String)
  | createSess (sid : String)
  | sessCmd (sid : String) (c : String) (timeout : Option Int)
  | logs (sid cid : String)
  | mkFolder (p : String)
  | upload (p content : String)
  | delFile (p : String)
deriving DecidableEq, Repr

/-- Mutable state of the provider singleton: `initialized`, `rootDir`
(empty string models `null`), the ambient `os.homedir()` and `Date.now()`
environment inputs, `pathMapping` and `sessionMap`. -/
structure PState where
  initialized : Bool
  rootDir : String
  homeDir : String
  nowMs : Nat
  pathCache : List (String × String)
  sessionMap : List (String × String)
deriving DecidableEq, Repr

/-- Exec input (`ExecInput`): argv, optional workdir, optional timeout. -/
structure ExecInput where
  cmd : List String
  workdir : Option String
  timeoutInMillis : Option Int
deriving DecidableEq, Repr

/-- Exec result (`ExecResult`). -/
structure ExecResult where
  stdout : String
  stderr : String
  exitCode : Int
deriving DecidableEq, Repr

/-- Abbreviation for an `ExecResult` literal. -/
def mkExecResult (o e : String) (c : Int) : ExecResult :=
  { stdout := o, stderr := e, exitCode := c }

/-! ### Path Mapper (`calculateRemotePath`, `isSystemDirectory`, `mapPath`) -/

/-- Source `isSystemDirectory(component, allParts)`. -/
def isSystemDirectory (component : String) (allParts : List String) : Bool :=
  if component = "home" ∧ allParts.any (fun p => p = "daytona") then false
  else ["Users", "usr", "var", "Library", "System", "Applications"].any
    (fun d => d = component)

/-- Source `calculateRemotePath(localPath)` (with `this.rootDir` and
`os.homedir()` made explicit parameters). -/
def calculateRemotePath (rootDir homeDir localPath : String) : String :=
  if ¬ pIsAbsolute localPath ∧ ¬ strContains localPath "/" ∧
      ¬ strContains localPath "\\" then
    pJoin rootDir localPath
  else if pIsAbsolute localPath then
    if startsWithStr localPath homeDir then
      pJoin rootDir (pRelative homeDir localPath)
    else
      let pathParts := splitPath localPath
      if strContains localPath "/home/daytona" then localPath
      else
        let relevantParts := jsSlice pathParts
          (jsFindIndex (fun p => ¬ isSystemDirectory p pathParts) pathParts)
        pJoinParts rootDir relevantParts
  else pJoin rootDir localPath

/-- Source `mapPath(localPath)`: throws when uninitialized, consults the
cache, otherwise computes and caches. -/
def mapPath (st : PState) (localPath : String) : Except String (String × PState) :=
  if ¬ (st.initialized = true) ∨ st.rootDir = "" then
    Except.error "Daytona sandbox not initialized"
  else
    match mapGet st.pathCache localPath with
    | some r => Except.ok (r, st)
    | none =>
      let remotePath := calculateRemotePath st.rootDir st.homeDir localPath
      Except.ok (remotePath,
        { st with pathCache := mapSet st.pathCache localPath remotePath })

/-! ### Command Preparer (`prepareCommand` and its fixes) -/

/-- Heads of the simple-filename rooting regex alternation. -/
def simpleFileWords : List String :=
  ["rm", "ls", "cat", "chmod", "python", "python3", "head", "tail", "mkdir"]

/-- Character class of the second capture of the rooting regex. -/
def simpleArgClass (c : Char) : Bool :=
  ¬ (c = '/' ∨ c = '\\' ∨ isJsWs c = true ∨ c = '-')

/-- Tail of the rooting regex at a position just after a head word. -/
def matchWsArg (cs : List Char) : Bool :=
  let ws := cs.takeWhile isJsWs
  if ws = [] then false
  else
    let rest := cs.drop ws.length
    let arg := rest.takeWhile simpleArgClass
    if arg = [] then false
    else
      match rest.drop arg.length with
      | [] => true
      | c :: _ => isJsWs c

/-- Boolean test of the anchored simple-filename regex of
`fixSimpleFilenamePaths`. -/
def simpleFileRegexTest (s : String) : Bool :=
  simpleFileWords.any
    (fun w => startsWithStr s w && matchWsArg (s.data.drop w.data.length))

/-- Source `fixSimpleFilenamePaths(commandStr)`. -/
def fixSimpleFilenamePaths (rootDir : String) (commandStr : String) : String :=
  if simpleFileRegexTest commandStr then
    let cmdParts := splitOnChar ' ' commandStr
    let arg := (cmdParts.drop 1).headD ""
    if arg ≠ "" ∧ ¬ startsWithStr arg "-" ∧ ¬ strContains arg "/" ∧
        ¬ strContains arg "\\" then
      joinSpace (cmdParts.take 1 ++ [pJoin rootDir arg] ++ cmdParts.drop 2)
    else commandStr
  else commandStr

/-- Source `needsShellWrapping(commandStr)`. -/
def needsShellWrapping (commandStr : String) : Bool :=
  strContains commandStr " > " ||
  strContains commandStr " | " ||
  strContains commandStr " && " ||
  strContains commandStr " ; " ||
  strContains commandStr " & " ||
  strContains commandStr "nohup " ||
  strContains commandStr "\"" ||
  strContains commandStr sqStr ||
  strContains commandStr "`" ||
  strContains commandStr "$" ||
  (startsWithStr commandStr "python" &&
    (strContains commandStr "-c" || strContains commandStr "-m")) ||
  (startsWithStr commandStr "python3" &&
    (strContains commandStr "-c" || strContains commandStr "-m")) ||
  strContains commandStr "echo" ||
  strContains commandStr "which" ||
  strContains commandStr "find" ||
  strContains commandStr "grep"

/-- Split a line before its last quote character (the greedy tail of the
python-code capture); `none` when the line has no quote. -/
def lastQuoteSplit (line : List Char) : Option (List Char) :=
  let idxs := (List.range line.length).filter
    (fun i => line.getD i ' ' = sqChar ∨ line.getD i ' ' = '"')
  match idxs.getLast? with
  | some i => some (line.take i)
  | none => none

/-- Try the python-code regex of `fixPythonCommand` at the start of `cs`,
returning the captured code. -/
def pyCAt (cs : List Char) : Option (List Char) :=
  if chPfx "python".data cs then
    let rest0 := cs.drop 6
    let rest1 := if rest0.head? = some '3' then rest0.drop 1 else rest0
    let ws1 := rest1.takeWhile isJsWs
    if ws1 = [] then none
    else
      let rest2 := rest1.drop ws1.length
      if chPfx ['-', 'c'] rest2 then
        let rest3 := rest2.drop 2
        let ws2 := rest3.takeWhile isJsWs
        if ws2 = [] then none
        else
          match rest3.drop ws2.length with
          | q :: body =>
            if q = sqChar ∨ q = '"' then
              let line := body.takeWhile (fun c => c ≠ Char.ofNat 10)
              match lastQuoteSplit line with
              | some cap => if cap = [] then none else some cap
              | none => none
            else none
          | [] => none
      else none
  else none

/-- Leftmost match of the python-code regex. -/
def pyCScan : List Char → Option (List Char)
  | [] => none
  | c :: rest =>
    match pyCAt (c :: rest) with
    | some cap => some cap
    | none => pyCScan rest

/-- Source `fixPythonCommand(commandStr)`. -/
def fixPythonCommand (commandStr : String) : String :=
  if (strContains commandStr "python -c" ∨ strContains commandStr "python3 -c") ∧
      ¬ startsWithStr commandStr "/bin/sh -c" then
    match pyCScan commandStr.data with
    | some cap =>
      let escapedCode := escapeSingleQuotes (String.mk cap)
      "/bin/sh -c " ++ sqStr ++ "python3 -c \"" ++ escapedCode ++ "\"" ++ sqStr
    | none => commandStr
  else commandStr

/-- Digits-then-rest tail of the timeout regex at a given position:
seconds capture and the rest-of-line capture. -/
def timeoutDigitsTail (r : List Char) : Option (Nat × List Char) :=
  let ds := r.takeWhile Char.isDigit
  if ds = [] then none
  else
    let r3 := r.drop ds.length
    let ws2 := r3.takeWhile isJsWs
    if ws2 = [] then none
    else some (digitsVal ds,
      (r3.drop ws2.length).takeWhile (fun c => c ≠ Char.ofNat 10))

/-- Try the timeout regex at the start of `cs`. -/
def timeoutAt (cs : List Char) : Option (Nat × List Char) :=
  if chPfx "timeout".data cs then
    let r1 := cs.drop 7
    let ws1 := r1.takeWhile isJsWs
    if ws1 = [] then none
    else
      let r2 := r1.drop ws1.length
      if chPfx ['-', 't'] r2 then
        let r2b := r2.drop 2
        let ws := r2b.takeWhile isJsWs
        if ws ≠ [] then
          match timeoutDigitsTail (r2b.drop ws.length) with
          | some x => some x
          | none => timeoutDigitsTail r2
        else timeoutDigitsTail r2
      else timeoutDigitsTail r2
  else none

/-- Leftmost match of the timeout regex. -/
def timeoutScan : List Char → Option (Nat × List Char)
  | [] => none
  | c :: rest =>
    match timeoutAt (c :: rest) with
    | some x => some x
    | none => timeoutScan rest

/-- Source `fixTimeoutCommand(commandStr)`. -/
def fixTimeoutCommand (commandStr : String) : String :=
  if startsWithStr commandStr "timeout " ∧
      ¬ startsWithStr commandStr "/bin/sh -c" then
    match timeoutScan commandStr.data with
    | some (seconds, actual) =>
      "/bin/sh -c " ++ sqStr ++ String.mk actual ++ " & pid=$!; sleep " ++
        natDec seconds ++
        "; kill $pid 2>/dev/null || true; wait $pid 2>/dev/null || true" ++ sqStr
    | none => commandStr
  else commandStr

/-- Try the sleep regex at the start of `cs`, returning the digit capture
verbatim (the source interpolates the captured string, not a number). -/
def sleepAt (cs : List Char) : Option (List Char) :=
  if chPfx "sleep".data cs then
    let r1 := cs.drop 5
    let ws := r1.takeWhile isJsWs
    if ws = [] then none
    else
      let ds := (r1.drop ws.length).takeWhile Char.isDigit
      if ds = [] then none else some ds
  else none

/-- Leftmost match of the sleep regex. -/
def sleepScan : List Char → Option (List Char)
  | [] => none
  | c :: rest =>
    match sleepAt (c :: rest) with
    | some x => some x
    | none => sleepScan rest

/-- Source `fixSleepCommand(commandStr)`. -/
def fixSleepCommand (commandStr : String) : String :=
  if startsWithStr commandStr "sleep " ∧ ¬ strContains commandStr " && " ∧
      ¬ startsWithStr commandStr "/bin/sh -c" then
    match sleepScan commandStr.data with
    | some ds =>
      "/bin/sh -c " ++ sqStr ++ "sleep " ++ String.mk ds ++ sqStr
    | none => commandStr
  else commandStr

/-- Source `fixNohupCommand(commandStr)`. -/
def fixNohupCommand (commandStr : String) : String :=
  if startsWithStr commandStr "nohup " ∧
      ¬ startsWithStr commandStr "/bin/sh -c" then
    "/bin/sh -c " ++ sqStr ++ "nohup " ++
      escapeSingleQuotes (strDrop commandStr 6) ++ sqStr
  else commandStr

/-- Source `fixFlaskCommand(commandStr)`. -/
def fixFlaskCommand (commandStr : String) : String :=
  if (strContains commandStr "flask run" ∨
      (strContains commandStr "python" ∧ strContains commandStr "app.py")) ∧
      ¬ startsWithStr commandStr "/bin/sh -c" then
    let runInBackground := ¬ strContains commandStr " -w " ∧
      ¬ strContains commandStr " --no-background"
    if runInBackground ∧ ¬ strContains commandStr " & " then
      let lastArg := (splitOnChar ' ' commandStr).getLastD ""
      "/bin/sh -c " ++ sqStr ++ "cd $(dirname " ++
        escapeSingleQuotes lastArg ++ "); nohup " ++
        escapeSingleQuotes commandStr ++
        " > flask.log 2>&1 & echo \"Flask app started with PID: $!\"" ++ sqStr
    else commandStr
  else commandStr

/-- Source `applyCommandSpecificFixes(commandStr)`: shell wrapping then the
five targeted rewrites, in order. -/
def applyCommandSpecificFixes (commandStr : String) : String :=
  let c1 :=
    if needsShellWrapping commandStr ∧ ¬ startsWithStr commandStr "/bin/sh -c" then
      "/bin/sh -c " ++ sqStr ++ escapeSingleQuotes commandStr ++ sqStr
    else commandStr
  fixFlaskCommand (fixNohupCommand (fixSleepCommand (fixTimeoutCommand
    (fixPythonCommand c1))))

/-- Source `prepareCommand(cmd)`. -/
def prepareCommand (rootDir : String) (cmd : List String) : String :=
  applyCommandSpecificFixes (fixSimpleFilenamePaths rootDir (joinSpace cmd))

/-- The prepared string actually submitted by `exec`: the prepared command
with the `cd <remoteWorkdir> && ` prefix when a remote workdir is truthy. -/
def prepareFullCommand (rootDir remoteWorkdir : String) (cmd : List String) :
    String :=
  let commandStr := prepareCommand rootDir cmd
  if remoteWorkdir ≠ "" then "cd " ++ remoteWorkdir ++ " && " ++ commandStr
  else commandStr

/-! ### Response Post-Processor (`processCommandResponse` and helpers) -/

/-- Source `isDirectoryListCommand(commandStr)` (detection only; in the
source its branch has no effect on the result). -/
def isDirectoryListCommand (commandStr : String) : Bool :=
  startsWithStr commandStr "ls " || commandStr = "ls" ||
  startsWithStr commandStr "dir " || commandStr = "dir" ||
  startsWithStr commandStr "find " ||
  strContains commandStr " -la" ||
  strContains commandStr " -l "

/-- Source `isWebServerCommand(commandStr)`. -/
def isWebServerCommand (commandStr : String) : Bool :=
  strContains commandStr "flask run" ||
  (strContains commandStr "python" && strContains commandStr "app.py") ||
  strContains commandStr "node " ||
  strContains commandStr "npm start" ||
  strContains commandStr "npm run dev" ||
  strContains commandStr "npx" ||
  strContains commandStr "rails server" ||
  strContains commandStr "rails s" ||
  strContains commandStr "server" ||
  strContains commandStr "serve" ||
  strContains commandStr "express" ||
  strContains commandStr "http-server" ||
  strContains commandStr "live-server"

/-- Scan for the first colon followed by a digit on the current line (lazy
tail of the flask port regex). -/
def findColonDigits : List Char → Option Nat
  | [] => none
  | c :: rest =>
    if c = Char.ofNat 10 then none
    else if c = ':' then
      match rest.head? with
      | some d => if d.isDigit then some (digitsVal rest) else findColonDigits rest
      | none => none
    else findColonDigits rest

/-- Leftmost match of the flask port regex on stdout. -/
def flaskScan : List Char → Option Nat
  | [] => none
  | c :: rest =>
    match
      (if chPfx "Running on http://".data (c :: rest) then
        findColonDigits ((c :: rest).drop 18)
      else none) with
    | some n => some n
    | none => flaskScan rest

/-- Optional whitespace then a digit run. -/
def wsDigits (cs : List Char) : Option Nat :=
  let r := cs.dropWhile isJsWs
  match r.head? with
  | some d => if d.isDigit then some (digitsVal r) else none
  | none => none

/-- Match of the port-or-colon tail of the node port regex at a position. -/
def portColonAt (cs : List Char) : Option Nat :=
  if chPfx "port".data cs then wsDigits (cs.drop 4)
  else
    match cs with
    | ':' :: r => wsDigits r
    | _ => none

/-- Lazy scan for the port-or-colon tail after at least one consumed
non-newline character. -/
def lazyPortScan : List Char → Option Nat
  | [] => none
  | c :: rest =>
    if c = Char.ofNat 10 then none
    else
      match portColonAt rest with
      | some n => some n
      | none => lazyPortScan rest

/-- Keywords of the node port regex (run on lowercased stdout). -/
def nodeKwList : List (List Char) :=
  ["listening".data, "started".data, "running".data, "server".data]

/-- Leftmost match of the node port regex. -/
def nodeScan : List Char → Option Nat
  | [] => none
  | c :: rest =>
    match
      (nodeKwList.filterMap (fun kw =>
        if chPfx kw (c :: rest) then some kw.length else none)).head? with
    | some klen =>
      match lazyPortScan ((c :: rest).drop klen) with
      | some n => some n
      | none => nodeScan rest
    | none => nodeScan rest

/-- Try the port-flag regex alternation at the start of `cs`. -/
def portFlagAt (cs : List Char) : Option Nat :=
  if chPfx "--port".data cs then
    match cs.drop 6 with
    | c :: r =>
      if c = '=' ∨ c = ' ' then
        let ds := r.takeWhile Char.isDigit
        if ds = [] then none else some (digitsVal ds)
      else none
    | [] => none
  else if chPfx ['-', 'p'] cs then
    let r := cs.drop 2
    let ws := r.takeWhile isJsWs
    if ws = [] then none
    else
      let ds := (r.drop ws.length).takeWhile Char.isDigit
      if ds = [] then none else some (digitsVal ds)
  else none

/-- Leftmost match of the port-flag regex on the command string. -/
def portFlagScan : List Char → Option Nat
  | [] => none
  | c :: rest =>
    match portFlagAt (c :: rest) with
    | some n => some n
    | none => portFlagScan rest

/-- Source `detectServerPort(stdout, commandStr)` — always yields a number
(framework defaults as the last resort). -/
def detectServerPort (stdout commandStr : String) : Nat :=
  match flaskScan stdout.data with
  | some n => n
  | none =>
    match nodeScan (stdout.data.map Char.toLower) with
    | some n => n
    | none =>
      match portFlagScan commandStr.data with
      | some n => n
      | none =>
        if strContains commandStr "flask" ∨
            (strContains commandStr "python" ∧ strContains commandStr "app.py")
        then 5000
        else if strContains commandStr "rails" then 3000
        else if strContains commandStr "next" ∨ strContains commandStr "vite"
        then 3000
        else 8000

/-- Source `determineServerType(commandStr)`. -/
def determineServerType (commandStr : String) : String :=
  if strContains commandStr "flask" ∨
      (strContains commandStr "python" ∧ strContains commandStr "app.py") then
    "Flask server"
  else if strContains commandStr "node" ∨ strContains commandStr "npm" ∨
      strContains commandStr "npx" then
    "Node.js server"
  else if strContains commandStr "rails" then "Rails server"
  else "Web server"

/-- Source `getPreviewLink(port)`: SDK method if present, else the URL
synthesized from the sandbox id; throws when neither is available. -/
def getPreviewLink (st : PState) (rem : Remote) (port : Nat) :
    Except String PreviewInfo :=
  if st.initialized = false then
    Except.error "Daytona sandbox not initialized"
  else
    match rem.getPreviewLinkFn with
    | some f =>
      match f port with
      | RpcRes.ok p => Except.ok p
      | RpcRes.err m => Except.error m
    | none =>
      match rem.sandboxId with
      | some id =>
        if id = "" then Except.error "Sandbox ID not available"
        else
          Except.ok
            { url := "https://" ++ natDec port ++ "-" ++ id ++ "." ++
                strTake id 6 ++ ".daytona.work",
              token := "auth-required" }
      | none => Except.error "Sandbox ID not available"

/-- Source `addPreviewLink(stdout, port, serverType)` given the resolved
preview info. -/
def addPreviewLink (stdout serverType : String) (info : PreviewInfo) : String :=
  stdout ++ "\n\n====== PREVIEW LINK ======\n" ++ info.url ++
  "\n=========================\n\n" ++ serverType ++
  " is running and accessible at the URL above.\n" ++
  "(You may need authentication token: " ++ info.token ++ ")\n"

/-- Source `addLocalAccessInfo(stdout, port, serverType, errorMessage)`. -/
def addLocalAccessInfo (stdout : String) (port : Nat)
    (serverType errorMessage : String) : String :=
  stdout ++ "\n\n====== LOCAL ACCESS ======\nhttp://127.0.0.1:" ++
  natDec port ++ "/\n=========================\n\n" ++ serverType ++
  " is running locally.\nUnable to generate preview link: " ++ errorMessage

/-- The `response` record reconciled in `exec` before post-processing. -/
structure RawResponse where
  result : String
  stderrStr : String
  exitCode : Int
deriving DecidableEq, Repr

/-- Source `processCommandResponse(response, commandStr)`.  A thrown
`getPreviewLink` error is caught; `String(err)` of an `Error` renders as
`Error: ` plus the message. -/
def processCommandResponse (st : PState) (rem : Remote) (resp : RawResponse)
    (commandStr : String) : ExecResult :=
  let stdout := resp.result
  if isWebServerCommand commandStr then
    let port := detectServerPort stdout commandStr
    if port ≠ 0 then
      match getPreviewLink st rem port with
      | Except.ok info =>
        { stdout := addPreviewLink stdout (determineServerType commandStr) info,
          stderr := "PREVIEW LINK: " ++ info.url,
          exitCode := resp.exitCode }
      | Except.error m =>
        { stdout := addLocalAccessInfo stdout port
            (determineServerType commandStr) ("Error: " ++ m),
          stderr := "LOCAL ACCESS: http://127.0.0.1:" ++ natDec port ++ "/",
          exitCode := resp.exitCode }
    else
      { stdout := stdout, stderr := resp.stderrStr, exitCode := resp.exitCode }
  else
    { stdout := stdout, stderr := resp.stderrStr, exitCode := resp.exitCode }

/-! ### Session Executor (`exec` and helpers) -/

/-- Source `ensureDaytonaHomeDirectory(cmd)`: probes and repairs
`/home/daytona`; every error is swallowed.  Returns the RPC trace. -/
def ensureDaytonaHomeDirectory (rem : Remote) (cmd : List String) : List Ev :=
  if ¬ cmd.any (fun arg => strContains arg "/home/daytona") then []
  else
    let checkCmd := "test -d /home/daytona && echo \"exists\" || echo \"missing\""
    match rem.executeCommand checkCmd with
    | RpcRes.err _ => [Ev.cmd checkCmd]
    | RpcRes.ok r =>
      if jsTrim (r.result.getD "") ≠ "exists" then
        match rem.fsCreateFolder "/home/daytona" with
        | RpcRes.ok _ => [Ev.cmd checkCmd, Ev.mkFolder "/home/daytona"]
        | RpcRes.err _ =>
          [Ev.cmd checkCmd, Ev.mkFolder "/home/daytona",
            Ev.cmd "mkdir -p /home/daytona"]
      else [Ev.cmd checkCmd]

/-- The `sessionKey.replace(/[^a-zA-Z0-9]/g, '-')` sanitizer. -/
def sanitizeKey (k : String) : String :=
  String.mk (k.data.map (fun c => if c.isAlphanum then c else '-'))

/-- Resolution of the remote working directory:
`workdir ? this.mapPath(workdir) : this.rootDir` with JS truthiness. -/
def resolveWorkdir (st : PState) (wd : Option String) :
    Except String (String × PState) :=
  match wd with
  | some w => if w ≠ "" then mapPath st w else Except.ok (st.rootDir, st)
  | none => Except.ok (st.rootDir, st)

/-- The session key `workdir || 'default'`. -/
def sessionKeyOf (wd : Option String) : String :=
  match wd with
  | some w => if w = "" then "default" else w
  | none => "default"

/-- Session acquisition of `exec`: reuse the mapped id, otherwise record a
fresh id in the map and create it, falling back to the default session id on
failure (the map entry keeps the fresh id; errors of the second
`createSession` are ignored). -/
def acquireSession (st : PState) (rem : Remote) (sessionKey : String) :
    String × PState × List Ev :=
  match mapGet st.sessionMap sessionKey with
  | some sid => (sid, st, [])
  | none =>
    let sid := "exec-session-" ++ sanitizeKey sessionKey ++ "-" ++
      natDec st.nowMs
    let st2 := { st with sessionMap := mapSet st.sessionMap sessionKey sid }
    match rem.createSession sid with
    | RpcRes.ok _ => (sid, st2, [Ev.createSess sid])
    | RpcRes.err _ =>
      ("default-exec-session", st2,
        [Ev.createSess sid, Ev.createSess "default-exec-session"])

/-- `timeoutInMillis ? Math.floor(timeoutInMillis / 1000) : undefined`. -/
def timeoutSecsOf (t : Option Int) : Option Int :=
  match t with
  | some t => if t = 0 then none else some (Int.fdiv t 1000)
  | none => none

/-- The log-retrieval step of `exec`: when the inline output is empty and a
`cmdId` is present, stream the session command logs (errors swallowed). -/
def retrieveLogs (rem : Remote) (sessionId : String)
    (cr : SessionCmdResponse) : String × List Ev :=
  if cr.output.getD "" = "" then
    match cr.cmdId with
    | some cid =>
      if cid ≠ "" then
        match rem.getSessionCommandLogs sessionId cid with
        | RpcRes.ok l => (l, [Ev.logs sessionId cid])
        | RpcRes.err _ => ("", [Ev.logs sessionId cid])
      else ("", [])
    | none => ("", [])
  else (cr.output.getD "", [])

/-- Source `exec(input)`.  Models the body for an already-initialized
provider (the `await this.initialize()` path of an uninitialized provider is
the lifecycle model below); returns the result, the updated provider state
and the RPC trace.  The outer `try`/`catch` turns every error thrown past it
into an error-shaped `ExecResult`. -/
def execDaytona (st : PState) (rem : Remote) (input : ExecInput) :
    Except String (ExecResult × PState × List Ev) :=
  if st.initialized = false then
    Except.error "Daytona sandbox not initialized"
  else
    let evs0 := ensureDaytonaHomeDirectory rem input.cmd
    match resolveWorkdir st input.workdir with
    | Except.error m => Except.ok (mkExecResult "" m 1, st, evs0)
    | Except.ok (remoteWorkdir, st1) =>
      let commandStr := prepareFullCommand st.rootDir remoteWorkdir input.cmd
      match acquireSession st1 rem (sessionKeyOf input.workdir) with
      | (sessionId, st2, evs1) =>
        let timeoutSecs := timeoutSecsOf input.timeoutInMillis
        let evs2 := evs0 ++ evs1 ++ [Ev.sessCmd sessionId commandStr timeoutSecs]
        match rem.executeSessionCommand sessionId commandStr timeoutSecs with
        | RpcRes.err m => Except.ok (mkExecResult "" m 1, st2, evs2)
        | RpcRes.ok cr =>
          match retrieveLogs rem sessionId cr with
          | (result1, evs3) =>
            Except.ok (processCommandResponse st2 rem
              { result := result1, stderrStr := cr.error.getD "",
                exitCode := cr.exitCode.getD 0 } commandStr,
              st2, evs2 ++ evs3)

/-! ### Patch Applier (`applyPatch`, `processPatches`, `saveAddedFile`,
`deleteFile`) -/

/-- Source `saveAddedFile(filePath, content, currentOutput)`: every thrown
error is caught and rendered as an `Error creating` line (`String(err)` of
an `Error` renders as `Error: ` plus the message). -/
def saveAddedFile (st : PState) (rem : Remote)
    (filePath content currentOutput : String) : String × PState × List Ev :=
  match mapPath st filePath with
  | Except.error m =>
    (currentOutput ++ "Error creating " ++ filePath ++ ": Error: " ++ m ++ "\n",
      st, [])
  | Except.ok (remotePath, st1) =>
    let ev0 := [Ev.mkFolder (pDirname remotePath)]
    match rem.fsUploadFile remotePath content with
    | RpcRes.err m =>
      (currentOutput ++ "Error creating " ++ filePath ++ ": Error: " ++ m ++ "\n",
        st1, ev0 ++ [Ev.upload remotePath content])
    | RpcRes.ok _ =>
      let checkCmd := "test -f \"" ++ remotePath ++
        "\" && echo \"exists\" || echo \"missing\""
      match rem.executeCommand checkCmd with
      | RpcRes.err m =>
        (currentOutput ++ "Error creating " ++ filePath ++ ": Error: " ++ m ++
          "\n", st1, ev0 ++ [Ev.upload remotePath content, Ev.cmd checkCmd])
      | RpcRes.ok r =>
        if jsTrim (r.result.getD "") = "exists" then
          (currentOutput ++ "Created " ++ filePath ++ "\n", st1,
            ev0 ++ [Ev.upload remotePath content, Ev.cmd checkCmd])
        else
          let echoCmd := "echo " ++ sqStr ++ escapeSingleQuotes content ++
            sqStr ++ " > \"" ++ remotePath ++ "\""
          match rem.executeCommand echoCmd with
          | RpcRes.err m =>
            (currentOutput ++ "Error creating " ++ filePath ++ ": Error: " ++
              m ++ "\n", st1,
              ev0 ++ [Ev.upload remotePath content, Ev.cmd checkCmd,
                Ev.cmd echoCmd])
          | RpcRes.ok _ =>
            (currentOutput ++ "Created " ++ filePath ++
              " (using echo fallback)\n", st1,
              ev0 ++ [Ev.upload remotePath content, Ev.cmd checkCmd,
                Ev.cmd echoCmd])

/-- Source `deleteFile(filePath, currentOutput)` of the patch applier. -/
def deleteFile (st : PState) (rem : Remote) (filePath currentOutput : String) :
    String × PState × List Ev :=
  match mapPath st filePath with
  | Except.error m =>
    (currentOutput ++ "Error deleting " ++ filePath ++ ": Error: " ++ m ++ "\n",
      st, [])
  | Except.ok (remotePath, st1) =>
    match rem.fsDeleteFile remotePath with
    | RpcRes.ok _ =>
      (currentOutput ++ "Deleted " ++ filePath ++ "\n", st1,
        [Ev.delFile remotePath])
    | RpcRes.err m =>
      (currentOutput ++ "Error deleting " ++ filePath ++ ": Error: " ++ m ++
        "\n", st1, [Ev.delFile remotePath])

/-- Loop variables of `processPatches`. -/
structure PatchLoopState where
  currentFilePath : String
  currentFileContent : String
  addingFile : Bool
  successOutput : String
  st : PState
  evs : List Ev

/-- One iteration of the `processPatches` loop body on a middle line. -/
def processPatchLine (rem : Remote) (a : PatchLoopState) (line : String) :
    PatchLoopState :=
  if startsWithStr line "*** Add File: " then
    let a1 :=
      if a.addingFile ∧ a.currentFilePath ≠ "" then
        match saveAddedFile a.st rem a.currentFilePath a.currentFileContent
            a.successOutput with
        | (_, st1, e1) =>
          { a with currentFileContent := "", st := st1, evs := a.evs ++ e1 }
      else a
    { a1 with currentFilePath := strDrop line 14, addingFile := true }
  else if a.addingFile ∧ startsWithStr line "+" then
    { a with currentFileContent :=
        a.currentFileContent ++ strDrop line 1 ++ "\n" }
  else if startsWithStr line "*** End of File" ∨
      startsWithStr line "*** Update File:" ∨
      startsWithStr line "*** Delete File:" then
    let a1 :=
      if a.addingFile ∧ a.currentFilePath ≠ "" then
        match saveAddedFile a.st rem a.currentFilePath a.currentFileContent
            a.successOutput with
        | (out, st1, e1) =>
          { a with
            currentFilePath := "", currentFileContent := "",
            addingFile := false, successOutput := out, st := st1,
            evs := a.evs ++ e1 }
      else a
    if startsWithStr line "*** Delete File: " then
      match deleteFile a1.st rem (strDrop line 17) a1.successOutput with
      | (out, st1, e1) =>
        { a1 with successOutput := out, st := st1, evs := a1.evs ++ e1 }
    else a1
  else a

/-- Source `processPatches(lines)`: iterates over the lines strictly
between the first and last, then flushes a pending add. -/
def processPatches (st : PState) (rem : Remote) (lines : List String) :
    String × PState × List Ev :=
  let middle := (lines.drop 1).dropLast
  let a := middle.foldl (processPatchLine rem)
    { currentFilePath := "", currentFileContent := "", addingFile := false,
      successOutput := "", st := st, evs := [] }
  if a.addingFile ∧ a.currentFilePath ≠ "" then
    match saveAddedFile a.st rem a.currentFilePath a.currentFileContent
        a.successOutput with
    | (out, st1, e1) => (out, st1, a.evs ++ e1)
  else (a.successOutput, a.st, a.evs)

/-- Source `applyPatch(patchText)` for an already-initialized provider: the
marker check on the trimmed text throws `Invalid patch format`, which the
surrounding catch turns into an error-shaped result. -/
def applyPatch (st : PState) (rem : Remote) (patchText : String) :
    Except String (ExecResult × PState × List Ev) :=
  if st.initialized = false then
    Except.error "Daytona sandbox not initialized"
  else
    let lines := splitOnChar (Char.ofNat 10) (jsTrim patchText)
    if ¬ (startsWithStr (lines.headD "") "*** Begin Patch" ∧
        lines.getLastD "" = "*** End Patch") then
      Except.ok
        ({ stdout := "", stderr := "Invalid patch format", exitCode := 1 },
          st, [])
    else
      match processPatches st rem lines with
      | (out, st1, evs) =>
        Except.ok
          ({ stdout := if out = "" then "Patch applied successfully" else out,
             stderr := "", exitCode := 0 }, st1, evs)

/-! ### JSON model (`JSON.parse` / `JSON.stringify` as used by
`execApplyPatch` and `parseToolCallOutput`) -/

/-- Parsed JSON values.  Non-integer numeric literals are kept verbatim in
`jnumRaw` (no claim depends on their numeric value). -/
inductive JVal where
  | jnull
  | jbool (b : Bool)
  | jnum (n : Int)
  | jnumRaw (lit : String)
  | jstr (s : String)
  | jarr (elems : List JVal)
  | jobj (members : List (String × JVal))
deriving Repr

/-- JSON insignificant whitespace. -/
def skipJsonWs (cs : List Char) : List Char :=
  cs.dropWhile (fun c =>
    c = ' ' ∨ c = Char.ofNat 9 ∨ c = Char.ofNat 10 ∨ c = Char.ofNat 13)

/-- Hexadecimal digit value. -/
def hexVal (c : Char) : Option Nat :=
  if c.isDigit then some (c.toNat - 48)
  else if 'a' ≤ c ∧ c ≤ 'f' then some (c.toNat - 87)
  else if 'A' ≤ c ∧ c ≤ 'F' then some (c.toNat - 55)
  else none

/-- Hexadecimal digit character (lowercase). -/
def hexDigit (n : Nat) : Char :=
  if n < 10 then Char.ofNat (48 + n) else Char.ofNat (87 + n)

/-- Decode one JSON string escape (the part after the backslash):
the decoded character and the remaining input.  Unpaired surrogate escapes
are rejected (Lean characters are scalar values; the source never produces
them). -/
def escDecode : List Char → Option (Char × List Char)
  | [] => none
  | e :: rest =>
    if e = '"' ∨ e = '\\' ∨ e = '/' then some (e, rest)
    else if e = 'b' then some (Char.ofNat 8, rest)
    else if e = 'f' then some (Char.ofNat 12, rest)
    else if e = 'n' then some (Char.ofNat 10, rest)
    else if e = 'r' then some (Char.ofNat 13, rest)
    else if e = 't' then some (Char.ofNat 9, rest)
    else if e = 'u' then
      match rest with
      | h1 :: h2 :: h3 :: h4 :: rest3 =>
        match hexVal h1, hexVal h2, hexVal h3, hexVal h4 with
        | some a, some b, some c2, some d =>
          let v := ((a * 16 + b) * 16 + c2) * 16 + d
          if v < 55296 ∨ 57343 < v then some (Char.ofNat v, rest3)
          else none
        | _, _, _, _ => none
      | _ => none
    else none

/-- JSON string body after the opening quote: content and remainder after
the closing quote.  Fuel decreases once per escape unit, so any fuel larger
than the character count suffices. -/
def parseStringB : Nat → List Char → Option (List Char × List Char)
  | 0, _ => none
  | _ + 1, [] => none
  | fuel + 1, c :: rest =>
    if c = '"' then some ([], rest)
    else if c = '\\' then
      match escDecode rest with
      | some (d, rest2) =>
        match parseStringB fuel rest2 with
        | some (cs, r) => some (d :: cs, r)
        | none => none
      | none => none
    else if c.toNat < 32 then none
    else
      match parseStringB fuel rest with
      | some (cs, r) => some (c :: cs, r)
      | none => none

/-- JSON number literal: integer literals become `jnum`, literals with a
fraction or exponent are kept verbatim as `jnumRaw`. -/
def parseNum (cs : List Char) : Option (JVal × List Char) :=
  let (neg, r1) := match cs with
    | '-' :: r => (true, r)
    | _ => (false, cs)
  match r1.head? with
  | none => none
  | some d =>
    if ¬ d.isDigit then none
    else
      let intPart := if d = '0' then [d] else r1.takeWhile Char.isDigit
      let r2 := r1.drop intPart.length
      if d = '0' ∧ ((r2.head?.map Char.isDigit).getD false) then none
      else
        let fracRes : Option (List Char × List Char) :=
          match r2 with
          | '.' :: fr =>
            let ds := fr.takeWhile Char.isDigit
            if ds = [] then none else some ('.' :: ds, fr.drop ds.length)
          | _ => some ([], r2)
        match fracRes with
        | none => none
        | some (fracCs, r3) =>
          let expRes : Option (List Char × List Char) :=
            match r3 with
            | e :: er =>
              if e = 'e' ∨ e = 'E' then
                let sgnSplit : List Char × List Char :=
                  match er with
                  | s :: er2b =>
                    if s = '+' ∨ s = '-' then ([s], er2b) else ([], er)
                  | [] => ([], er)
                let ds := sgnSplit.2.takeWhile Char.isDigit
                if ds = [] then none
                else some (e :: (sgnSplit.1 ++ ds), sgnSplit.2.drop ds.length)
              else some ([], r3)
            | [] => some ([], r3)
          match expRes with
          | none => none
          | some (expCs, r4) =>
            if fracCs = [] ∧ expCs = [] then
              let v : Int := Int.ofNat (digitsVal intPart)
              some (JVal.jnum (if neg then -v else v), r4)
            else
              some (JVal.jnumRaw (String.mk
                ((if neg then ['-'] else []) ++ intPart ++ fracCs ++ expCs)), r4)

mutual

/-- Recursive-descent JSON value parser (fuel bounds the nesting). -/
def parseVal : Nat → List Char → Option (JVal × List Char)
  | 0, _ => none
  | fuel + 1, cs0 =>
    let cs := skipJsonWs cs0
    match cs with
    | [] => none
    | c :: rest =>
      if c = 'n' then
        if chPfx "null".data cs then some (JVal.jnull, cs.drop 4) else none
      else if c = 't' then
        if chPfx "true".data cs then some (JVal.jbool true, cs.drop 4) else none
      else if c = 'f' then
        if chPfx "false".data cs then some (JVal.jbool false, cs.drop 5)
        else none
      else if c = '"' then
        match parseStringB (rest.length + 1) rest with
        | some (content, r) => some (JVal.jstr (String.mk content), r)
        | none => none
      else if c = '[' then
        match skipJsonWs rest with
        | ']' :: r2 => some (JVal.jarr [], r2)
        | r1 => parseElems fuel r1 []
      else if c = Char.ofNat 123 then
        match skipJsonWs rest with
        | '"' :: r2 =>
          match parseStringB (r2.length + 1) r2 with
          | some (key, r3) => parseMembers fuel (String.mk key) r3 []
          | none => none
        | r1 =>
          if r1.head? = some (Char.ofNat 125) then
            some (JVal.jobj [], r1.drop 1)
          else none
      else if c = '-' ∨ c.isDigit then parseNum cs
      else none

/-- Array elements after the opening bracket (at least one element). -/
def parseElems : Nat → List Char → List JVal → Option (JVal × List Char)
  | 0, _, _ => none
  | fuel + 1, cs, acc =>
    match parseVal fuel cs with
    | none => none
    | some (v, r) =>
      match skipJsonWs r with
      | ',' :: r2 => parseElems fuel r2 (acc ++ [v])
      | ']' :: r2 => some (JVal.jarr (acc ++ [v]), r2)
      | _ => none

/-- Object members, starting just after a parsed key string. -/
def parseMembers : Nat → String → List Char → List (String × JVal) →
    Option (JVal × List Char)
  | 0, _, _, _ => none
  | fuel + 1, key, cs, acc =>
    match skipJsonWs cs with
    | ':' :: r1 =>
      match parseVal fuel r1 with
      | none => none
      | some (v, r2) =>
        match skipJsonWs r2 with
        | ',' :: r3 =>
          match skipJsonWs r3 with
          | '"' :: r4 =>
            match parseStringB (r4.length + 1) r4 with
            | some (key2, r5) =>
              parseMembers fuel (String.mk key2) r5 (acc ++ [(key, v)])
            | none => none
          | _ => none
        | c :: r3 =>
          if c = Char.ofNat 125 then
            some (JVal.jobj (acc ++ [(key, v)]), r3)
          else none
        | [] => none
    | _ => none

end

/-- Model of `JSON.parse`: parse one value, then require only whitespace to
remain.  The fuel bound is large enough for any input. -/
def jsParse (s : String) : Option JVal :=
  match parseVal (2 * strLen s + 8) s.data with
  | some (v, rest) => if skipJsonWs rest = [] then some v else none
  | none => none

/-- JSON string escaping of one character (as `JSON.stringify` emits it). -/
def escJsonChar (c : Char) : List Char :=
  if c = '"' then ['\\', '"']
  else if c = '\\' then ['\\', '\\']
  else if c = Char.ofNat 8 then ['\\', 'b']
  else if c = Char.ofNat 9 then ['\\', 't']
  else if c = Char.ofNat 10 then ['\\', 'n']
  else if c = Char.ofNat 12 then ['\\', 'f']
  else if c = Char.ofNat 13 then ['\\', 'r']
  else if c.toNat < 32 then
    ['\\', 'u', '0', '0', hexDigit (c.toNat / 16), hexDigit (c.toNat % 16)]
  else [c]

/-- JSON string escaping. -/
def escJson (s : String) : String := String.mk (s.data.flatMap escJsonChar)

/-- A JSON string literal. -/
def jsonStrLit (s : String) : String := "\"" ++ escJson s ++ "\""

/-- The exact string `JSON.stringify` produces in `execApplyPatch` for
`{output, metadata: {exit_code, duration_seconds: 0}}` (insertion order,
no added whitespace). -/
def jsonStringifyEnvelope (output : String) (exitCode : Int) : String :=
  "\x7b\"output\":" ++ jsonStrLit output ++
  ",\"metadata\":\x7b\"exit_code\":" ++ intDec exitCode ++
  ",\"duration_seconds\":0\x7d\x7d"

/-- Source `execApplyPatch(patchText)` for the Daytona sandbox branch of
`exec.ts`: wraps the inner `applyPatch` result into the JSON envelope. -/
def execApplyPatch (st : PState) (rem : Remote) (patchText : String) :
    Except String (ExecResult × PState × List Ev) :=
  match applyPatch st rem patchText with
  | Except.error e => Except.error e
  | Except.ok (result, st1, evs) =>
    let output :=
      if result.stdout ≠ "" then result.stdout
      else if patchText ≠ "" then patchText
      else "Patch applied successfully"
    Except.ok
      ({ stdout := jsonStringifyEnvelope output result.exitCode,
         stderr := result.stderr, exitCode := result.exitCode }, st1, evs)

/-! ### Tool-call output decoding (`parseToolCallOutput` of `parsers.ts`) -/

/-- The result record of `parseToolCallOutput`; `metadata = none` models the
JS `undefined` obtained when the parsed JSON has no `metadata` member. -/
structure ToolParsed where
  output : String
  metadata : Option JVal
deriving Repr

/-- The metadata object the source constructs in its fallback branches. -/
def mkMeta (code : Int) : JVal :=
  JVal.jobj [("exit_code", JVal.jnum code), ("duration_seconds", JVal.jnum 0)]

/-- JS object member access after destructuring (`last` occurrence wins for
duplicate keys, `undefined` for non-objects). -/
def objGet (v : JVal) (k : String) : Option JVal :=
  match v with
  | JVal.jobj kvs => (kvs.reverse.find? (fun p => p.1 = k)).map (fun p => p.2)
  | _ => none

/-- JS truthiness of a JSON value (a raw numeric literal is falsy exactly
when all mantissa digits are zero). -/
def jvalTruthy : JVal → Bool
  | JVal.jnull => false
  | JVal.jbool b => b
  | JVal.jnum n => n ≠ 0
  | JVal.jnumRaw lit =>
    ¬ (lit.data.takeWhile (fun c => ¬ (c = 'e' ∨ c = 'E'))).all
      (fun c => ¬ c.isDigit ∨ c = '0')
  | JVal.jstr s => s ≠ ""
  | JVal.jarr _ => true
  | JVal.jobj _ => true

mutual

/-- JS `String(v)` on a JSON value. -/
def jsToStr : JVal → String
  | JVal.jnull => "null"
  | JVal.jbool b => if b then "true" else "false"
  | JVal.jnum n => intDec n
  | JVal.jnumRaw lit => lit
  | JVal.jstr s => s
  | JVal.jarr xs => jsArrStr xs
  | JVal.jobj _ => "[object Object]"

/-- JS array-to-string join (null elements render empty). -/
def jsArrStr : List JVal → String
  | [] => ""
  | [JVal.jnull] => ""
  | [x] => jsToStr x
  | JVal.jnull :: xs => "," ++ jsArrStr xs
  | x :: xs => jsToStr x ++ "," ++ jsArrStr xs

end

/-- The `String(output || '')` coercion of the source. -/
def jsOutCoerce (o : Option JVal) : String :=
  match o with
  | none => ""
  | some v => if jvalTruthy v then jsToStr v else ""

/-- The catch branch of `parseToolCallOutput`: raw patch echo recognized by
substring containment, else the truncated failure message. -/
def rawOrFallback (s : String) : ToolParsed :=
  if strContains s "*** Begin Patch" ∨ strContains s "*** Add File:" ∨
      strContains s "Created " then
    { output := s, metadata := some (mkMeta 0) }
  else
    { output := "Failed to parse output: " ++ strTake s 100 ++
        (if 100 < strLen s then "..." else ""),
      metadata := some (mkMeta 1) }

/-- Source `parseToolCallOutput(toolCallOutput)`.  The input is always a
string in this model, so the `typeof` test reduces to the emptiness test;
destructuring a parsed `null` throws inside the `try` and lands in the
catch branch. -/
def parseToolCallOutput (toolCallOutput : String) : ToolParsed :=
  if toolCallOutput = "" then
    { output := "Empty or invalid output", metadata := some (mkMeta 1) }
  else
    match jsParse toolCallOutput with
    | some JVal.jnull => rawOrFallback toolCallOutput
    | some v =>
      { output := jsOutCoerce (objGet v "output"),
        metadata := objGet v "metadata" }
    | none => rawOrFallback toolCallOutput

/-! ### Lifecycle model (`initialize` / `initializeInternal` single-flight)

JS run-to-completion makes the synchronous prefix of `initialize()` atomic:
testing `initialized` and `initPromise`, storing the new promise, and
running `initializeInternal` up to its first `await` — which is the point
where `this.daytona.create(...)` is issued — happen without interleaving.
`InitEv.call` is that atomic step (from `initialize()` or from the guard at
the top of `exec`/`applyPatch`); `completeOk` is the init promise resolving
(workspace and root dir stored, `initialized := true`); `completeErr` is a
rejection, after which `initPromise` is never cleared, so later callers
still join the same settled flight and never start a second create. -/

/-- Lifecycle observable state. -/
structure InitState where
  createCount : Nat
  initPromiseSet : Bool
  initialized : Bool
  workspace : Option Nat
deriving DecidableEq, Repr

/-- Lifecycle events (atomic steps of the interleaving model). -/
inductive InitEv where
  | call
  | completeOk (wsId : Nat)
  | completeErr
deriving DecidableEq, Repr

/-- The pre-init zero state. -/
def freshInit : InitState :=
  { createCount := 0, initPromiseSet := false, initialized := false,
    workspace := none }

/-- One atomic lifecycle step. -/
def initStep (s : InitState) (e : InitEv) : InitState :=
  match e with
  | InitEv.call =>
    if s.initialized then s
    else if s.initPromiseSet then s
    else { s with initPromiseSet := true, createCount := s.createCount + 1 }
  | InitEv.completeOk wsId =>
    if s.initPromiseSet ∧ s.workspace = none then
      { s with initialized := true, workspace := some wsId }
    else s
  | InitEv.completeErr => s

/-! ### Concrete fixtures used by counterexamples and witnesses -/

/-- An initialized provider state with the usual Daytona root dir, a macOS
host home dir, and a fixed clock reading. -/
def sampleState : PState :=
  { initialized := true, rootDir := "/home/daytona", homeDir := "/Users/alice",
    nowMs := 123, pathCache := [], sessionMap := [] }

/-- A remote where every RPC succeeds: commands report `exists`, session
commands return `hello` with exit code 0. -/
def remoteAllOk : Remote :=
  { executeCommand := fun _ => RpcRes.ok { result := some "exists" },
    createSession := fun _ => RpcRes.ok (),
    executeSessionCommand := fun _ _ _ =>
      RpcRes.ok
        { output := some "hello", error := some "", exitCode := some 0,
          cmdId := none },
    getSessionCommandLogs := fun _ _ => RpcRes.ok "",
    fsCreateFolder := fun _ => RpcRes.ok (),
    fsUploadFile := fun _ _ => RpcRes.ok (),
    fsDeleteFile := fun _ => RpcRes.ok (),
    getPreviewLinkFn := none, sandboxId := some "sb1234567" }

/-- Like `remoteAllOk` but `createSession` throws for every id except the
default session id. -/
def remoteBadCreate : Remote :=
  { remoteAllOk with
    createSession := fun sid =>
      if sid = "default-exec-session" then RpcRes.ok ()
      else RpcRes.err "create failed" }

/-- The exec input used by the session-fallback scenarios. -/
def execInputW : ExecInput :=
  { cmd := ["true"], workdir := some "w", timeoutInMillis := none }

/-- A two-add patch where the first add is terminated by the next
`*** Add File:` header. -/
def patchTwoAdds : String :=
  "*** Begin Patch\n*** Add File: a.txt\n+x\n*** Add File: b.txt\n+y\n*** End Patch"

/-- Invariant of the lifecycle state machine: `initialized` implies the
init flight was started, and the create count is 1 exactly when the flight
was started. -/
def initInv (s : InitState) : Prop :=
  (s.initialized = true → s.initPromiseSet = true) ∧
  s.createCount = (if s.initPromiseSet then 1 else 0)

/-- A remote whose `executeSessionCommand` always throws `net down`. -/
def remoteSessFail : Remote :=
  { remoteAllOk with
    executeSessionCommand := fun _ _ _ => RpcRes.err "net down" }

/-- Character class of the amended C4 hypotheses: the characters an
alphanumeric-and-dash argv can contribute to the joined string. -/
def alnumDashSpace (c : Char) : Bool := c.isAlphanum || c = '-' || c = ' '

/-- A path component that normalization keeps verbatim. -/
def cleanComp (c : String) : Bool := ¬ (c = "." ∨ c = "..")

/-- A normalized absolute directory string (the shape `getUserRootDir`
returns): its own join of components, clean, below the root. -/
def cleanAbsDir (r : String) : Prop :=
  r = "/" ++ joinSlash (splitPath r) ∧
  (splitPath r).all (fun c => cleanComp c) = true ∧ splitPath r ≠ []

/-- A host path without `..` components whose string-prefix match with the
host home directory (if any) is path-aligned. -/
def goodHostPath (homeDir p : String) : Prop :=
  (splitPath p).all (fun c => c ≠ "..") = true ∧
  (startsWithStr p homeDir = true →
    p = homeDir ∨ ∃ rest, p.data = homeDir.data ++ '/' :: rest)

/-- Invariant I5 on one cache entry: the remote path begins with `rootDir`,
or it is a pass-through (an absolute path containing `/home/daytona`). -/
def cacheEntryOk (rootDir : String) (e : String × String) : Prop :=
  startsWithStr e.2 rootDir = true ∨
  (pIsAbsolute e.2 = true ∧ strContains e.2 "/home/daytona" = true)

/-- Invariant I5 over the whole path cache. -/
def pathCacheInv (st : PState) : Prop :=
  ∀ e ∈ st.pathCache, cacheEntryOk st.rootDir e

/-! ### Claim theorems -/

/-- C1 counterexample: with an initialized provider, a remote whose
`createSession` throws `create failed` for the fresh per-workdir id, and a
session command that succeeds with output `hello`, `exec` returns
`{stdout := "hello", stderr := "", exitCode := 0}` — not the
`{stdout := "", stderr := message, exitCode := 1}` shape the claim promises
whenever the remote binding's session creation throws. -/
theorem exec_session_create_error_counterexample :
    remoteBadCreate.createSession "exec-session-w-123" =
      RpcRes.err "create failed" ∧
    (execDaytona sampleState remoteBadCreate execInputW).toOption.map
        Prod.fst =
      some (mkExecResult "hello" "" 0) ∧
    (execDaytona sampleState remoteBadCreate execInputW).toOption.map
        Prod.fst ≠
      some (mkExecResult "" "create failed" 1) := by
  refine ⟨rfl, rfl, ?_⟩
  decide

/-- C2 counterexample: the patch text `*** Begin Patch\n*** End Patch `
(trailing space) violates the claim's marker condition — its raw last line
is `*** End Patch ` (with the space), not exactly `*** End Patch` — yet
`applyPatch` trims the whole text first and returns exit code 0, where the
claim demands exit code 1. -/
theorem applyPatch_trailing_space_counterexample :
    ((splitOnChar (Char.ofNat 10)
        "*** Begin Patch\n*** End Patch ").getLastD "" = "*** End Patch ") ∧
    "*** End Patch " ≠ "*** End Patch" ∧
    (applyPatch sampleState remoteAllOk
        "*** Begin Patch\n*** End Patch ").toOption.map Prod.fst =
      some (mkExecResult "Patch applied successfully" "" 0) := by
  refine ⟨rfl, by decide, rfl⟩

/-- C3 counterexample: for host home `/Users/alice`, the absolute host path
`/Users/aliceextra/f` shares a string prefix with the home directory without
being inside it; `mapPath` caches it as `/home/aliceextra/f`, which neither
begins with the root dir `/home/daytona` nor is a pass-through (the host
path does not contain `/home/daytona`), violating the claimed invariant. -/
theorem mapPath_escapes_root_counterexample :
    mapPath sampleState "/Users/aliceextra/f" =
      Except.ok ("/home/aliceextra/f",
        { sampleState with
          pathCache := [("/Users/aliceextra/f", "/home/aliceextra/f")] }) ∧
    startsWithStr "/home/aliceextra/f" "/home/daytona" = false ∧
    strContains "/Users/aliceextra/f" "/home/daytona" = false ∧
    startsWithStr "/Users/aliceextra/f" "/Users/alice" = true := by
  refine ⟨rfl, rfl, rfl, rfl⟩

/-- C4 counterexample: the argv `["echo", "hi"]` consists only of
alphanumeric tokens, yet the prepared string is shell-wrapped (the
`needsShellWrapping` heuristic fires on the substring `echo`), so it is not
`cd <remoteWorkdir> && echo hi` as the claim states. -/
theorem prepare_echo_counterexample :
    (["echo", "hi"].all
      (fun t => t.data.all (fun c => c.isAlphanum || c = '-'))) = true ∧
    prepareFullCommand "/home/daytona" "/home/daytona" ["echo", "hi"] =
      "cd /home/daytona && /bin/sh -c " ++ sqStr ++ "echo hi" ++ sqStr ∧
    prepareFullCommand "/home/daytona" "/home/daytona" ["echo", "hi"] ≠
      "cd /home/daytona && echo hi" := by
  refine ⟨rfl, rfl, ?_⟩
  decide

/-- C5 failing input: in `patchTwoAdds` the add of `a.txt` is terminated by
the next `*** Add File:` header; the remote verification command for
`/home/daytona/a.txt` reports `exists`, and the upload of `a.txt` does
happen, yet the returned stdout is only `Created b.txt\n` — the
`Created a.txt\n` line required by the claim is missing, because
`processPatches` discards the return value of `saveAddedFile` in that
branch. -/
theorem applyPatch_discarded_add_log :
    remoteAllOk.executeCommand
        ("test -f \"/home/daytona/a.txt\" && echo \"exists\" || echo \"missing\"") =
      RpcRes.ok { result := some "exists" } ∧
    (applyPatch sampleState remoteAllOk patchTwoAdds).toOption.map Prod.fst =
      some (mkExecResult "Created b.txt\n" "" 0) ∧
    (applyPatch sampleState remoteAllOk patchTwoAdds).toOption.map
        (fun r => r.2.2.contains (Ev.upload "/home/daytona/a.txt" "x\n")) =
      some true ∧
    strContains "Created b.txt\n" ("Created a.txt\n") = false := by
  refine ⟨rfl, rfl, rfl, rfl⟩

/-- C6 failing input: executing `["true"]` with workdir `w` on an
initialized provider whose remote rejects the fresh session id leaves
`sessionMap["w"] = "exec-session-w-123"` — a session id whose creation
failed and which is not the default session id, contradicting the claimed
invariant (the fallback only changes the local variable, not the map). -/
theorem sessionMap_keeps_failed_id :
    (execDaytona sampleState remoteBadCreate execInputW).toOption.map
        (fun r => mapGet r.2.1.sessionMap "w") =
      some (some "exec-session-w-123") ∧
    remoteBadCreate.createSession "exec-session-w-123" =
      RpcRes.err "create failed" ∧
    "exec-session-w-123" ≠ "default-exec-session" := by
  refine ⟨rfl, rfl, by decide⟩

/-- C7 counterexample: with empty argv on an initialized provider whose
remote returns output `hello` with exit code 0, `exec` returns exit code 0
and empty stderr — not the claimed `exitCode = 1` with
`stderr = "empty command"` (no such check exists in the code). -/
theorem exec_empty_cmd_counterexample :
    (execDaytona sampleState remoteAllOk
        { cmd := [], workdir := none, timeoutInMillis := none }).toOption.map
        Prod.fst =
      some (mkExecResult "hello" "" 0) ∧
    (execDaytona sampleState remoteAllOk
        { cmd := [], workdir := none, timeoutInMillis := none }).toOption.map
        Prod.fst ≠
      some (mkExecResult "" "empty command" 1) := by
  refine ⟨rfl, ?_⟩
  decide

/-- C8 counterexample: the string `x Created y` is not valid JSON, starts
with none of the three markers, but contains `Created `; the source
recognizes markers by substring containment, so it returns the string
itself with exit code 0 instead of the claimed failure shape. -/
theorem parse_tool_call_output_contains_counterexample :
    jsParse "x Created y" = none ∧
    startsWithStr "x Created y" "*** Begin Patch" = false ∧
    startsWithStr "x Created y" "*** Add File:" = false ∧
    startsWithStr "x Created y" "Created " = false ∧
    parseToolCallOutput "x Created y" =
      { output := "x Created y", metadata := some (mkMeta 0) } ∧
    (parseToolCallOutput "x Created y").output ≠
      "Failed to parse output: x Created y" := by
  refine ⟨rfl, rfl, rfl, rfl, rfl, by decide⟩

/-- C2 amended: the marker conditions are evaluated on the
whitespace-trimmed patch text (the source applies `trim()` before
splitting).  When the trimmed first line starts with `*** Begin Patch` and
the trimmed last line is exactly `*** End Patch`, `applyPatch` returns exit
code 0 with empty stderr and the per-file success log (or
`Patch applied successfully` when the log is empty), regardless of how the
individual file operations fared; otherwise it returns
`{stdout := "", stderr := "Invalid patch format", exitCode := 1}`. -/
theorem applyPatch_markers_amended (st : PState) (rem : Remote) (p : String)
    (h1 : st.initialized = true) :
    ((startsWithStr ((splitOnChar (Char.ofNat 10) (jsTrim p)).headD "")
        "*** Begin Patch" = true ∧
      (splitOnChar (Char.ofNat 10) (jsTrim p)).getLastD "" = "*** End Patch") →
      applyPatch st rem p = Except.ok
        (mkExecResult
          (if (processPatches st rem
                (splitOnChar (Char.ofNat 10) (jsTrim p))).1 = ""
           then "Patch applied successfully"
           else (processPatches st rem
                (splitOnChar (Char.ofNat 10) (jsTrim p))).1)
          "" 0,
         (processPatches st rem (splitOnChar (Char.ofNat 10) (jsTrim p))).2.1,
         (processPatches st rem (splitOnChar (Char.ofNat 10) (jsTrim p))).2.2)) ∧
    (¬ (startsWithStr ((splitOnChar (Char.ofNat 10) (jsTrim p)).headD "")
        "*** Begin Patch" = true ∧
      (splitOnChar (Char.ofNat 10) (jsTrim p)).getLastD "" = "*** End Patch") →
      applyPatch st rem p =
        Except.ok (mkExecResult "" "Invalid patch format" 1, st, [])) := by
  have hni : ¬ (st.initialized = false) := by simp [h1]
  constructor
  · intro hm
    simp only [applyPatch, if_neg hni, if_neg (not_not_intro hm)]
    rfl
  · intro hm
    simp only [applyPatch, if_neg hni, if_pos hm]
    rfl

/-- Witness for the C2 amended theorem at the concrete patch of the spec's
add-file scenario, discharging the marker hypothesis. -/
theorem applyPatch_markers_amended_witness :
    sampleState.initialized = true ∧
    applyPatch sampleState remoteAllOk
        "*** Begin Patch\n*** Add File: hello.py\n+print(\"hi\")\n*** End of File\n*** End Patch" =
      Except.ok (mkExecResult "Created hello.py\n" "" 0,
        { sampleState with
          pathCache := [("hello.py", "/home/daytona/hello.py")] },
        [Ev.mkFolder "/home/daytona",
         Ev.upload "/home/daytona/hello.py" "print(\"hi\")\n",
         Ev.cmd "test -f \"/home/daytona/hello.py\" && echo \"exists\" || echo \"missing\""]) := by
  constructor
  · rfl
  · have h := (applyPatch_markers_amended sampleState remoteAllOk
      "*** Begin Patch\n*** Add File: hello.py\n+print(\"hi\")\n*** End of File\n*** End Patch"
      rfl).1 (by constructor <;> rfl)
    rw [h]
    rfl

/-- C8 amended: `parseToolCallOutput` recognizes the raw patch echo by
substring containment (`includes`), not by prefixes: valid-JSON envelopes
yield their `output` and `metadata`; non-empty non-JSON strings containing
any of the three markers anywhere decode to the string itself with exit
code 0; non-empty non-JSON strings containing none of them decode to the
truncated `Failed to parse output:` shape with exit code 1. -/
theorem parse_tool_call_output_amended (s : String) :
    (∀ v o m, jsParse s = some v →
      objGet v "output" = some (JVal.jstr o) →
      objGet v "metadata" = some m →
      parseToolCallOutput s = { output := o, metadata := some m }) ∧
    (s ≠ "" → jsParse s = none →
      (strContains s "*** Begin Patch" = true ∨
       strContains s "*** Add File:" = true ∨
       strContains s "Created " = true) →
      parseToolCallOutput s = { output := s, metadata := some (mkMeta 0) }) ∧
    (s ≠ "" → jsParse s = none →
      ¬ (strContains s "*** Begin Patch" = true ∨
         strContains s "*** Add File:" = true ∨
         strContains s "Created " = true) →
      parseToolCallOutput s =
        { output := "Failed to parse output: " ++ strTake s 100 ++
            (if 100 < strLen s then "..." else ""),
          metadata := some (mkMeta 1) }) := by
  refine ⟨?_, ?_, ?_⟩
  · intro v o m hp ho hm
    have hs : s ≠ "" := by
      intro h
      rw [h] at hp
      exact Option.noConfusion ((rfl : jsParse "" = none) ▸ hp)
    cases v with
    | jobj kvs =>
      have hred : parseToolCallOutput s =
          { output := jsOutCoerce (objGet (JVal.jobj kvs) "output"),
            metadata := objGet (JVal.jobj kvs) "metadata" } := by
        unfold parseToolCallOutput
        rw [if_neg hs, hp]
      rw [hred, ho, hm]
      by_cases hoe : o = ""
      · subst hoe
        simp [jsOutCoerce, jvalTruthy]
      · simp [jsOutCoerce, jvalTruthy, hoe, jsToStr]
    | jnull => simp [objGet] at ho
    | jbool b => simp [objGet] at ho
    | jnum n => simp [objGet] at ho
    | jnumRaw l => simp [objGet] at ho
    | jstr t => simp [objGet] at ho
    | jarr xs => simp [objGet] at ho
  · intro hs hp hmk
    unfold parseToolCallOutput
    rw [if_neg hs, hp]
    unfold rawOrFallback
    rw [if_pos hmk]
  · intro hs hp hmk
    unfold parseToolCallOutput
    rw [if_neg hs, hp]
    unfold rawOrFallback
    rw [if_neg hmk]

/-- Witness for the C8 amended theorem: one concrete instance of each of
the three clauses, with every hypothesis discharged by evaluation. -/
theorem parse_tool_call_output_amended_witness :
    parseToolCallOutput
        "\x7b\"output\":\"ok!\",\"metadata\":\x7b\"exit_code\":0,\"duration_seconds\":0\x7d\x7d" =
      { output := "ok!", metadata := some (mkMeta 0) } ∧
    parseToolCallOutput "oops *** Add File: z" =
      { output := "oops *** Add File: z", metadata := some (mkMeta 0) } ∧
    parseToolCallOutput "plain failure" =
      { output := "Failed to parse output: plain failure" ++ "",
        metadata := some (mkMeta 1) } := by
  refine ⟨?_, ?_, ?_⟩
  · exact (parse_tool_call_output_amended _).1
      (JVal.jobj [("output", JVal.jstr "ok!"), ("metadata", mkMeta 0)])
      "ok!" (mkMeta 0) rfl rfl rfl
  · exact (parse_tool_call_output_amended _).2.1 (by decide) rfl
      (Or.inr (Or.inl rfl))
  · have h := (parse_tool_call_output_amended "plain failure").2.2 (by decide)
      rfl (by decide)
    rw [h]
    rfl

theorem initStep_preserves_inv (s : InitState) (e : InitEv)
    (h : initInv s) : initInv (initStep s e) := by
  obtain ⟨h1, h2⟩ := h
  cases e with
  | call =>
    simp only [initStep]
    by_cases hi : s.initialized = true
    · rw [if_pos hi]
      exact ⟨h1, h2⟩
    · rw [if_neg hi]
      by_cases hp : s.initPromiseSet = true
      · rw [if_pos hp]
        exact ⟨h1, h2⟩
      · rw [if_neg hp]
        refine ⟨fun _ => rfl, ?_⟩
        have hp2 : s.initPromiseSet = false := by
          cases hb : s.initPromiseSet
          · rfl
          · exact absurd hb hp
        rw [hp2] at h2
        simp at h2
        simp [initInv, h2]
  | completeOk wsId =>
    simp only [initStep]
    by_cases hc : s.initPromiseSet = true ∧ s.workspace = none
    · rw [if_pos hc]
      exact ⟨fun _ => hc.1, by simpa [hc.1] using h2⟩
    · rw [if_neg hc]
      exact ⟨h1, h2⟩
  | completeErr => exact ⟨h1, h2⟩

theorem initStep_promise_mono (s : InitState) (e : InitEv)
    (h : s.initPromiseSet = true) : (initStep s e).initPromiseSet = true := by
  cases e with
  | call =>
    simp only [initStep]
    by_cases hi : s.initialized = true
    · rw [if_pos hi]
      exact h
    · rw [if_neg hi]
      rw [if_pos h]
      exact h
  | completeOk wsId =>
    simp only [initStep]
    by_cases hc : s.initPromiseSet = true ∧ s.workspace = none
    · rw [if_pos hc]
      exact h
    · rw [if_neg hc]
      exact h
  | completeErr => exact h

theorem initStep_call_promise (s : InitState) (hinv : initInv s) :
    (initStep s InitEv.call).initPromiseSet = true := by
  simp only [initStep]
  by_cases hi : s.initialized = true
  · rw [if_pos hi]
    exact hinv.1 hi
  · rw [if_neg hi]
    by_cases hp : s.initPromiseSet = true
    · rw [if_pos hp]
      exact hp
    · rw [if_neg hp]

theorem initFold_count (evs : List InitEv) :
    ∀ s : InitState, initInv s →
      (InitEv.call ∈ evs ∨ s.initPromiseSet = true) →
      (evs.foldl initStep s).createCount = 1 := by
  induction evs with
  | nil =>
    intro s hinv hc
    rcases hc with hc | hc
    · cases hc
    · simpa [hc] using hinv.2
  | cons e rest ih =>
    intro s hinv hc
    have hinv2 := initStep_preserves_inv s e hinv
    rw [List.foldl_cons]
    rcases hc with hc | hc
    · rcases List.mem_cons.mp hc with he | he
      · subst he
        exact ih _ hinv2 (Or.inr (initStep_call_promise s hinv))
      · exact ih _ hinv2 (Or.inl he)
    · exact ih _ hinv2 (Or.inr (initStep_promise_mono s e hc))

/-- C9: in the run-to-completion interleaving model of `initialize()` (the
synchronous check-and-set of `initPromise` together with issuing
`client.create` is one atomic step, as JS guarantees), any sequence of
lifecycle events containing at least one `initialize`/`exec` entry performs
exactly one workspace create; since the workspace lives in one singleton
field that `completeOk` sets once, every caller awaiting the shared flight
observes that same workspace. -/
theorem init_single_flight (evs : List InitEv) (h : InitEv.call ∈ evs) :
    (evs.foldl initStep freshInit).createCount = 1 := by
  apply initFold_count evs freshInit
  · constructor
    · intro hi
      exact absurd hi (by simp [freshInit])
    · rfl
  · exact Or.inl h

/-- Witness for C9 at a concrete five-caller trace. -/
theorem init_single_flight_witness :
    InitEv.call ∈
      [InitEv.call, InitEv.call, InitEv.call, InitEv.completeOk 7,
        InitEv.call, InitEv.call] ∧
    (([InitEv.call, InitEv.call, InitEv.call, InitEv.completeOk 7,
        InitEv.call, InitEv.call]).foldl initStep freshInit).createCount = 1 :=
  ⟨by decide, init_single_flight _ (by decide)⟩

theorem mapPath_ok (st : PState) (w : String) (h1 : st.initialized = true)
    (hr : st.rootDir ≠ "") : ∃ pr, mapPath st w = Except.ok pr := by
  unfold mapPath
  rw [if_neg (by simp [h1, hr])]
  cases mapGet st.pathCache w with
  | none => exact ⟨_, rfl⟩
  | some r => exact ⟨_, rfl⟩

theorem resolveWorkdir_ok (st : PState) (wd : Option String)
    (h1 : st.initialized = true) (hr : st.rootDir ≠ "") :
    ∃ pr, resolveWorkdir st wd = Except.ok pr := by
  cases wd with
  | none => exact ⟨_, rfl⟩
  | some w =>
    simp only [resolveWorkdir]
    by_cases hw : w ≠ ""
    · rw [if_pos hw]
      exact mapPath_ok st w h1 hr
    · rw [if_neg hw]
      exact ⟨_, rfl⟩

/-- C1 amended: on an initialized provider, `exec` always returns an
`ExecResult` (its outer catch absorbs every error thrown inside the body),
and whenever the command submission (`executeSessionCommand`) throws, the
result is `{stdout := "", stderr := message, exitCode := 1}`.  Errors of
session creation instead degrade to the default session, and errors of log
retrieval are swallowed, so they do not produce the error-shaped result. -/
theorem exec_total_amended (st : PState) (rem : Remote) (input : ExecInput)
    (h1 : st.initialized = true) :
    (∃ r, execDaytona st rem input = Except.ok r) ∧
    (∀ m, st.rootDir ≠ "" →
      (∀ sid c t, rem.executeSessionCommand sid c t = RpcRes.err m) →
      ∃ st2 evs, execDaytona st rem input =
        Except.ok (mkExecResult "" m 1, st2, evs)) := by
  have hni : ¬ (st.initialized = false) := by simp [h1]
  constructor
  · unfold execDaytona
    rw [if_neg hni]
    rcases hwd : resolveWorkdir st input.workdir with m | ⟨rwd, st1⟩
    · exact ⟨_, rfl⟩
    · dsimp only
      rcases hacq : acquireSession st1 rem (sessionKeyOf input.workdir) with
        ⟨sessionId, st2, evs1⟩
      dsimp only
      rcases hsc : rem.executeSessionCommand sessionId
          (prepareFullCommand st.rootDir rwd input.cmd)
          (timeoutSecsOf input.timeoutInMillis) with cr | m
      · exact ⟨_, rfl⟩
      · exact ⟨_, rfl⟩
  · intro m hr hsess
    unfold execDaytona
    rw [if_neg hni]
    obtain ⟨⟨rwd, st1⟩, hwd⟩ := resolveWorkdir_ok st input.workdir h1 hr
    rw [hwd]
    dsimp only
    rcases hacq : acquireSession st1 rem (sessionKeyOf input.workdir) with
      ⟨sessionId, st2, evs1⟩
    dsimp only
    rw [hsess]
    exact ⟨_, _, rfl⟩

/-- Witness for the C1 amended theorem: with a remote whose session
commands always throw `net down`, `exec` returns the error-shaped result. -/
theorem exec_total_amended_witness :
    sampleState.initialized = true ∧
    (∃ r, execDaytona sampleState remoteSessFail
        { cmd := ["ls"], workdir := none, timeoutInMillis := some 2500 } =
      Except.ok r) ∧
    (∃ st2 evs, execDaytona sampleState remoteSessFail
        { cmd := ["ls"], workdir := none, timeoutInMillis := some 2500 } =
      Except.ok (mkExecResult "" "net down" 1, st2, evs)) :=
  ⟨rfl,
   (exec_total_amended sampleState remoteSessFail
     { cmd := ["ls"], workdir := none, timeoutInMillis := some 2500 } rfl).1,
   (exec_total_amended sampleState remoteSessFail
     { cmd := ["ls"], workdir := none, timeoutInMillis := some 2500 } rfl).2
     "net down" (by decide) (fun _ _ _ => rfl)⟩

theorem strAppendEmpty (s : String) : s ++ "" = s := by
  cases s with
  | mk l =>
    show String.mk (l ++ []) = String.mk l
    rw [List.append_nil]

theorem prepareCommand_nil (r : String) : prepareCommand r [] = "" := rfl

theorem prepareFullCommand_nil (st : PState) (h2 : st.rootDir ≠ "") :
    prepareFullCommand st.rootDir st.rootDir [] =
      "cd " ++ st.rootDir ++ " && " := by
  unfold prepareFullCommand
  dsimp only
  rw [if_pos h2, prepareCommand_nil]
  exact strAppendEmpty _

/-- C7 amended: `exec` has no empty-command check.  With empty argv (and no
workdir) it submits the string `cd <rootDir> && ` to the remote session and
returns the remote-derived result; the error shape
`{exitCode := 1, stderr := "empty command"}` is never produced locally. -/
theorem exec_empty_cmd_amended (st : PState) (rem : Remote)
    (h1 : st.initialized = true) (h2 : st.rootDir ≠ "") :
    ∃ r st2 evs sid t,
      execDaytona st rem { cmd := [], workdir := none, timeoutInMillis := none } =
        Except.ok (r, st2, evs) ∧
      Ev.sessCmd sid ("cd " ++ st.rootDir ++ " && ") t ∈ evs := by
  have hni : ¬ (st.initialized = false) := by simp [h1]
  unfold execDaytona
  rw [if_neg hni]
  dsimp only
  rw [show resolveWorkdir st none = Except.ok (st.rootDir, st) from rfl]
  dsimp only
  rw [prepareFullCommand_nil st h2]
  rcases hacq : acquireSession st rem (sessionKeyOf none) with
    ⟨sessionId, st2, evs1⟩
  dsimp only
  rcases hsc : rem.executeSessionCommand sessionId
      ("cd " ++ st.rootDir ++ " && ") (timeoutSecsOf none) with cr | m
  · refine ⟨_, _, _, sessionId, timeoutSecsOf none, rfl, ?_⟩
    simp
  · refine ⟨_, _, _, sessionId, timeoutSecsOf none, rfl, ?_⟩
    simp

/-- Witness for the C7 amended theorem at the sample state. -/
theorem exec_empty_cmd_amended_witness :
    sampleState.initialized = true ∧ sampleState.rootDir ≠ "" ∧
    (∃ r st2 evs sid t,
      execDaytona sampleState remoteAllOk
          { cmd := [], workdir := none, timeoutInMillis := none } =
        Except.ok (r, st2, evs) ∧
      Ev.sessCmd sid ("cd " ++ sampleState.rootDir ++ " && ") t ∈ evs) :=
  ⟨rfl, by decide, exec_empty_cmd_amended sampleState remoteAllOk rfl (by decide)⟩

theorem strData_append (a b : String) : (a ++ b).data = a.data ++ b.data := by
  cases a
  cases b
  rfl

theorem chPfx_append (l m : List Char) : chPfx l (l ++ m) = true := by
  induction l with
  | nil => rfl
  | cons a t ih => simp [chPfx, ih]

theorem chPfx_iff_exists (p s : List Char) :
    chPfx p s = true ↔ ∃ q, s = p ++ q := by
  constructor
  · intro h
    induction p generalizing s with
    | nil => exact ⟨s, rfl⟩
    | cons a t ih =>
      cases s with
      | nil => simp [chPfx] at h
      | cons b s2 =>
        simp only [chPfx, Bool.and_eq_true, decide_eq_true_eq] at h
        obtain ⟨q, hq⟩ := ih s2 h.2
        exact ⟨q, by simp [h.1, hq]⟩
  · rintro ⟨q, rfl⟩
    exact chPfx_append p q

theorem chPfx_mem (p s : List Char) (h : chPfx p s = true) :
    ∀ c ∈ p, c ∈ s := by
  obtain ⟨q, rfl⟩ := (chPfx_iff_exists p s).1 h
  intro c hc
  exact List.mem_append_left _ hc

theorem chContains_mem (p s : List Char) (h : chContains p s = true) :
    ∀ c ∈ p, c ∈ s := by
  induction s with
  | nil =>
    intro c hc
    unfold chContains at h
    cases p with
    | nil => cases hc
    | cons a t => simp [chPfx] at h
  | cons b s2 ih =>
    intro c hc
    unfold chContains at h
    rw [Bool.or_eq_true] at h
    rcases h with h1 | h2
    · exact chPfx_mem _ _ h1 c hc
    · exact List.mem_cons_of_mem b (ih h2 c hc)

theorem strContains_mem (s p : String) (h : strContains s p = true) :
    ∀ c ∈ p.data, c ∈ s.data :=
  chContains_mem _ _ h

theorem strContains_false_of_bad (s p : String) (c : Char)
    (hc : c ∈ p.data) (hbad : alnumDashSpace c = false)
    (hgood : ∀ d ∈ s.data, alnumDashSpace d = true) :
    strContains s p = false := by
  cases hcon : strContains s p with
  | false => rfl
  | true =>
    exact absurd (hgood c (strContains_mem s p hcon c hc)) (by simp [hbad])

theorem chPfx_chContains (p s : List Char) (h : chPfx p s = true) :
    chContains p s = true := by
  cases s with
  | nil =>
    cases p with
    | nil => rfl
    | cons a t => simp [chPfx] at h
  | cons b t =>
    unfold chContains
    simp [h]

theorem startsWith_contains (s p : String) (h : strContains s p = false) :
    startsWithStr s p = false := by
  cases hsw : startsWithStr s p with
  | false => rfl
  | true =>
    have hc : strContains s p = true := chPfx_chContains p.data s.data hsw
    rw [h] at hc
    cases hc

theorem joinSpace_charset (cmd : List String)
    (h : ∀ t ∈ cmd, ∀ c ∈ t.data, (c.isAlphanum || c = '-') = true) :
    ∀ c ∈ (joinSpace cmd).data, alnumDashSpace c = true := by
  induction cmd with
  | nil => intro c hc; cases hc
  | cons t rest ih =>
    cases rest with
    | nil =>
      intro c hc
      have hx := h t (List.mem_cons_self t []) c hc
      rw [Bool.or_eq_true] at hx
      unfold alnumDashSpace
      rcases hx with h1 | h1 <;> simp [h1]
    | cons u rest2 =>
      intro c hc
      rw [show joinSpace (t :: u :: rest2) = t ++ " " ++ joinSpace (u :: rest2)
        from rfl, strData_append, strData_append] at hc
      rcases List.mem_append.mp hc with hc1 | hc1
      · rcases List.mem_append.mp hc1 with hc2 | hc2
        · have hx := h t (List.mem_cons_self t _) c hc2
          rw [Bool.or_eq_true] at hx
          unfold alnumDashSpace
          rcases hx with h1 | h1 <;> simp [h1]
        · have : c = ' ' := by simpa using hc2
          simp [alnumDashSpace, this]
      · exact ih (fun t2 ht2 => h t2 (List.mem_cons_of_mem t ht2)) c hc1

theorem ws_char_eq_space (c : Char) (h1 : isJsWs c = true)
    (h2 : alnumDashSpace c = true) : c = ' ' := by
  unfold isJsWs at h1
  simp only [Bool.or_eq_true, decide_eq_true_eq] at h1
  rcases h1 with ((((h | h) | h) | h) | h) | h
  · exact h
  all_goals (subst h; exact absurd h2 (by decide))

theorem matchWsArg_head (cs : List Char) (h : matchWsArg cs = true) :
    ∃ c cs2, cs = c :: cs2 ∧ isJsWs c = true := by
  cases cs with
  | nil => simp [matchWsArg] at h
  | cons c cs2 =>
    by_cases hw : isJsWs c = true
    · exact ⟨c, cs2, rfl, hw⟩
    · exfalso
      unfold matchWsArg at h
      rw [List.takeWhile_cons_of_neg (by simp [hw])] at h
      simp at h

theorem chPfx_append_cancel (a b c : List Char) :
    chPfx (a ++ b) (a ++ c) = chPfx b c := by
  induction a with
  | nil => rfl
  | cons x t ih => simp [chPfx, ih]

theorem simpleFileRegexTest_false (s : String)
    (hcs : ∀ d ∈ s.data, alnumDashSpace d = true)
    (hheads : ∀ w ∈ simpleFileWords,
      startsWithStr s (w ++ " ") = false) :
    simpleFileRegexTest s = false := by
  unfold simpleFileRegexTest
  rw [List.any_eq_false]
  intro w hw
  simp only [Bool.and_eq_true, not_and]
  intro h1 h2
  obtain ⟨q, hq⟩ := (chPfx_iff_exists w.data s.data).1 h1
  have hdrop : s.data.drop w.data.length = q := by
    rw [hq]
    exact List.drop_left _ _
  rw [hdrop] at h2
  obtain ⟨c, q2, hq2, hwsc⟩ := matchWsArg_head q h2
  have hcmem : c ∈ s.data := by
    rw [hq, hq2]
    exact List.mem_append_right _ (List.mem_cons_self c q2)
  have hsp : c = ' ' := ws_char_eq_space c hwsc (hcs c hcmem)
  have : startsWithStr s (w ++ " ") = true := by
    unfold startsWithStr
    rw [strData_append, hq, hq2, hsp]
    rw [show (" " : String).data = [' '] from rfl]
    rw [chPfx_append_cancel w.data [' '] (' ' :: q2)]
    simp [chPfx]
  rw [hheads w hw] at this
  cases this

theorem needsShellWrapping_false (s : String)
    (hcs : ∀ d ∈ s.data, alnumDashSpace d = true)
    (hecho : strContains s "echo" = false)
    (hwhich : strContains s "which" = false)
    (hfind : strContains s "find" = false)
    (hgrep : strContains s "grep" = false)
    (hnohup : strContains s "nohup " = false)
    (hpy : startsWithStr s "python" = true →
      strContains s "-c" = false ∧ strContains s "-m" = false) :
    needsShellWrapping s = false := by
  have hgt := strContains_false_of_bad s " > " '>' (by decide) (by decide) hcs
  have hpipe := strContains_false_of_bad s " | " '|' (by decide) (by decide) hcs
  have hamp2 := strContains_false_of_bad s " && " '&' (by decide) (by decide) hcs
  have hsemi := strContains_false_of_bad s " ; " ';' (by decide) (by decide) hcs
  have hamp := strContains_false_of_bad s " & " '&' (by decide) (by decide) hcs
  have hdq := strContains_false_of_bad s "\"" '"' (by decide) (by decide) hcs
  have hsq : strContains s sqStr = false :=
    strContains_false_of_bad s sqStr sqChar (by decide) (by decide) hcs
  have hbt := strContains_false_of_bad s "`" '`' (by decide) (by decide) hcs
  have hdl := strContains_false_of_bad s "$" '$' (by decide) (by decide) hcs
  unfold needsShellWrapping
  rw [hgt, hpipe, hamp2, hsemi, hamp, hnohup, hdq, hsq, hbt, hdl, hecho,
    hwhich, hfind, hgrep]
  by_cases hpf : startsWithStr s "python" = true
  · obtain ⟨hc, hm⟩ := hpy hpf
    rw [hc, hm, hpf]
    by_cases hp3 : startsWithStr s "python3" = true
    · rw [hp3]
      rfl
    · rw [Bool.not_eq_true] at hp3
      rw [hp3]
      rfl
  · rw [Bool.not_eq_true] at hpf
    rw [hpf]
    have hp3 : startsWithStr s "python3" = false := by
      cases h3 : startsWithStr s "python3" with
      | false => rfl
      | true =>
        exfalso
        obtain ⟨q, hq⟩ := (chPfx_iff_exists _ _).1 h3
        have : startsWithStr s "python" = true := by
          unfold startsWithStr
          rw [hq, show ("python3" : String).data = "python".data ++ ['3'] from rfl,
            List.append_assoc]
          exact chPfx_append _ _
        rw [hpf] at this
        cases this
    rw [hp3]
    rfl

theorem fixSimpleFilenamePaths_id (r s : String)
    (h : simpleFileRegexTest s = false) :
    fixSimpleFilenamePaths r s = s := by
  unfold fixSimpleFilenamePaths
  rw [if_neg (by simp [h])]

theorem fixPythonCommand_id (s : String)
    (h7 : strContains s "python -c" = false)
    (h8 : strContains s "python3 -c" = false) :
    fixPythonCommand s = s := by
  unfold fixPythonCommand
  rw [if_neg]
  rintro ⟨h | h, -⟩
  · rw [h7] at h
    cases h
  · rw [h8] at h
    cases h

theorem fixTimeoutCommand_id (s : String)
    (h : startsWithStr s "timeout " = false) :
    fixTimeoutCommand s = s := by
  unfold fixTimeoutCommand
  rw [if_neg]
  rintro ⟨h1, -⟩
  rw [h] at h1
  cases h1

theorem fixSleepCommand_id (s : String)
    (h : startsWithStr s "sleep " = false) :
    fixSleepCommand s = s := by
  unfold fixSleepCommand
  rw [if_neg]
  rintro ⟨h1, -, -⟩
  rw [h] at h1
  cases h1

theorem fixNohupCommand_id (s : String)
    (h : startsWithStr s "nohup " = false) :
    fixNohupCommand s = s := by
  unfold fixNohupCommand
  rw [if_neg]
  rintro ⟨h1, -⟩
  rw [h] at h1
  cases h1

theorem fixFlaskCommand_id (s : String)
    (h12 : strContains s "flask run" = false)
    (happ : strContains s "app.py" = false) :
    fixFlaskCommand s = s := by
  unfold fixFlaskCommand
  rw [if_neg]
  rintro ⟨h | ⟨-, h⟩, -⟩
  · rw [h12] at h
    cases h
  · rw [happ] at h
    cases h

/-- C4 amended: for a non-empty argv of alphanumeric-and-dash tokens, the
prepared string is exactly `cd <remoteWorkdir> && <argv joined with spaces>`
with no shell wrapping and no rewrite, provided none of the source's rewrite
patterns fires on the joined string: none of the substrings `echo`, `which`,
`find`, `grep`, `nohup `, `python -c`, `python3 -c`, `flask run` occurs, the
string does not start with `timeout `, `sleep `, or a simple-filename head
word followed by a space, and a string starting with `python` contains
neither `-c` nor `-m`.  (The counterexample shows the original claim fails
without these conditions.) -/
theorem prepare_plain_command_amended (rootDir wd : String)
    (cmd : List String) (_hne : cmd ≠ [])
    (hchars : ∀ t ∈ cmd, ∀ c ∈ t.data, (c.isAlphanum || c = '-') = true)
    (hecho : strContains (joinSpace cmd) "echo" = false)
    (hwhich : strContains (joinSpace cmd) "which" = false)
    (hfind : strContains (joinSpace cmd) "find" = false)
    (hgrep : strContains (joinSpace cmd) "grep" = false)
    (hnohup : strContains (joinSpace cmd) "nohup " = false)
    (hpyc : strContains (joinSpace cmd) "python -c" = false)
    (hpy3c : strContains (joinSpace cmd) "python3 -c" = false)
    (hpy : startsWithStr (joinSpace cmd) "python" = true →
      strContains (joinSpace cmd) "-c" = false ∧
      strContains (joinSpace cmd) "-m" = false)
    (htimeout : startsWithStr (joinSpace cmd) "timeout " = false)
    (hsleep : startsWithStr (joinSpace cmd) "sleep " = false)
    (hflask : strContains (joinSpace cmd) "flask run" = false)
    (hheads : ∀ w ∈ simpleFileWords,
      startsWithStr (joinSpace cmd) (w ++ " ") = false)
    (hwd : wd ≠ "") :
    prepareFullCommand rootDir wd cmd =
      "cd " ++ wd ++ " && " ++ joinSpace cmd := by
  have hcs := joinSpace_charset cmd hchars
  have happ : strContains (joinSpace cmd) "app.py" = false :=
    strContains_false_of_bad _ "app.py" '.' (by decide) (by decide) hcs
  have hnsw := needsShellWrapping_false (joinSpace cmd) hcs hecho hwhich
    hfind hgrep hnohup hpy
  have hreg := simpleFileRegexTest_false (joinSpace cmd) hcs hheads
  have hfixes : applyCommandSpecificFixes (joinSpace cmd) = joinSpace cmd := by
    unfold applyCommandSpecificFixes
    dsimp only
    rw [if_neg (fun hcon => by rw [hnsw] at hcon; exact Bool.noConfusion hcon.1)]
    rw [fixPythonCommand_id _ hpyc hpy3c, fixTimeoutCommand_id _ htimeout,
      fixSleepCommand_id _ hsleep,
      fixNohupCommand_id _ (startsWith_contains _ _ hnohup),
      fixFlaskCommand_id _ hflask happ]
  unfold prepareFullCommand prepareCommand
  dsimp only
  rw [fixSimpleFilenamePaths_id rootDir _ hreg, hfixes, if_pos hwd]

/-- Witness for the C4 amended theorem at `["git", "status"]`. -/
theorem prepare_plain_command_amended_witness :
    (["git", "status"] : List String) ≠ [] ∧
    prepareFullCommand "/home/daytona" "/home/daytona" ["git", "status"] =
      "cd " ++ "/home/daytona" ++ " && " ++ joinSpace ["git", "status"] :=
  ⟨by decide,
   prepare_plain_command_amended "/home/daytona" "/home/daytona"
     ["git", "status"] (by decide) (by decide) rfl rfl rfl rfl rfl rfl rfl
     (by intro h; exact absurd h (by decide)) rfl rfl rfl (by decide)
     (by decide)⟩

theorem hexVal_hexDigit : ∀ x : Nat, x < 16 → hexVal (hexDigit x) = some x := by
  decide

theorem escJsonChar_spec (c : Char) :
    (escJsonChar c = [c] ∧ c ≠ '"' ∧ c ≠ '\\' ∧ ¬ c.toNat < 32) ∨
    (∃ code, escJsonChar c = '\\' :: code ∧
      ∀ tail, escDecode (code ++ tail) = some (c, tail)) := by
  by_cases h1 : c = '"'
  · subst h1
    exact Or.inr ⟨['"'], rfl, fun tail => rfl⟩
  · by_cases h2 : c = '\\'
    · subst h2
      exact Or.inr ⟨['\\'], rfl, fun tail => rfl⟩
    · by_cases h3 : c = Char.ofNat 8
      · subst h3
        exact Or.inr ⟨['b'], rfl, fun tail => rfl⟩
      · by_cases h4 : c = Char.ofNat 9
        · subst h4
          exact Or.inr ⟨['t'], rfl, fun tail => rfl⟩
        · by_cases h5 : c = Char.ofNat 10
          · subst h5
            exact Or.inr ⟨['n'], rfl, fun tail => rfl⟩
          · by_cases h6 : c = Char.ofNat 12
            · subst h6
              exact Or.inr ⟨['f'], rfl, fun tail => rfl⟩
            · by_cases h7 : c = Char.ofNat 13
              · subst h7
                exact Or.inr ⟨['r'], rfl, fun tail => rfl⟩
              · by_cases h8 : c.toNat < 32
                · refine Or.inr ⟨['u', '0', '0', hexDigit (c.toNat / 16),
                    hexDigit (c.toNat % 16)], ?_, ?_⟩
                  · unfold escJsonChar
                    rw [if_neg h1, if_neg h2, if_neg h3, if_neg h4, if_neg h5,
                      if_neg h6, if_neg h7, if_pos h8]
                  · intro tail
                    show escDecode ('u' :: '0' :: '0' ::
                      hexDigit (c.toNat / 16) :: hexDigit (c.toNat % 16) ::
                      tail) = some (c, tail)
                    have hhi : hexVal (hexDigit (c.toNat / 16)) =
                        some (c.toNat / 16) := hexVal_hexDigit _ (by omega)
                    have hlo : hexVal (hexDigit (c.toNat % 16)) =
                        some (c.toNat % 16) := hexVal_hexDigit _ (by omega)
                    have h0 : hexVal (Char.ofNat 48) = some 0 := by decide
                    simp only [escDecode, hhi, hlo, h0]
                    rw [if_neg (by decide : ¬(Char.ofNat 117 = Char.ofNat 34 ∨
                      Char.ofNat 117 = Char.ofNat 92 ∨
                      Char.ofNat 117 = Char.ofNat 47))]
                    rw [if_neg (by decide : Char.ofNat 117 ≠ Char.ofNat 98)]
                    rw [if_neg (by decide : Char.ofNat 117 ≠ Char.ofNat 102)]
                    rw [if_neg (by decide : Char.ofNat 117 ≠ Char.ofNat 110)]
                    rw [if_neg (by decide : Char.ofNat 117 ≠ Char.ofNat 114)]
                    rw [if_neg (by decide : Char.ofNat 117 ≠ Char.ofNat 116)]
                    rw [if_pos trivial]
                    have hval : ((0 * 16 + 0) * 16 + c.toNat / 16) * 16 +
                        c.toNat % 16 = c.toNat := by omega
                    rw [hval, if_pos (Or.inl (by omega)), Char.ofNat_toNat]
                · refine Or.inl ⟨?_, h1, h2, h8⟩
                  unfold escJsonChar
                  rw [if_neg h1, if_neg h2, if_neg h3, if_neg h4, if_neg h5,
                    if_neg h6, if_neg h7, if_neg h8]

theorem escLen_ge (cs : List Char) :
    cs.length ≤ (cs.flatMap escJsonChar).length := by
  induction cs with
  | nil => simp
  | cons c t ih =>
    rw [List.flatMap_cons, List.length_append, List.length_cons]
    have h1 : 1 ≤ (escJsonChar c).length := by
      unfold escJsonChar
      repeat' split
      all_goals simp
    omega

theorem parseStringB_escaped (cs : List Char) : ∀ fuel rest, cs.length < fuel →
    parseStringB fuel (cs.flatMap escJsonChar ++ '"' :: rest) = some (cs, rest) := by
  induction cs with
  | nil =>
    intro fuel rest hf
    match fuel, hf with
    | fuel + 1, _ =>
      show parseStringB (fuel + 1) ([] ++ '"' :: rest) = some ([], rest)
      rw [List.nil_append]
      simp only [parseStringB]
      rw [if_pos trivial]
  | cons c t ih =>
    intro fuel rest hf
    match fuel, hf with
    | fuel + 1, hf =>
      rw [List.flatMap_cons, List.append_assoc]
      rcases escJsonChar_spec c with ⟨heq, hq, hb, h32⟩ | ⟨code, heq, hdec⟩
      · rw [heq]
        show parseStringB (fuel + 1)
          (c :: (t.flatMap escJsonChar ++ '"' :: rest)) = some (c :: t, rest)
        simp only [parseStringB]
        rw [if_neg hq, if_neg hb, if_neg h32,
          ih fuel rest (by simpa using Nat.lt_of_succ_lt_succ hf)]
      · rw [heq]
        show parseStringB (fuel + 1)
          ('\\' :: (code ++ (t.flatMap escJsonChar ++ '"' :: rest))) =
          some (c :: t, rest)
        simp only [parseStringB]
        rw [if_neg (by decide : ¬ (Char.ofNat 92 = Char.ofNat 34)),
          if_pos trivial, hdec (t.flatMap escJsonChar ++ '"' :: rest)]
        dsimp only
        rw [ih fuel rest (by simpa using Nat.lt_of_succ_lt_succ hf)]

theorem parseVal_jstr (o : String) (f : Nat) (tail : List Char) :
    parseVal f.succ ('"' :: ((o.data.flatMap escJsonChar) ++ '"' :: tail)) =
    some (JVal.jstr o, tail) := by
  have hlen : o.data.length <
      ((o.data.flatMap escJsonChar) ++ '"' :: tail).length + 1 := by
    have h := escLen_ge o.data
    rw [List.length_append]
    omega
  have hps := parseStringB_escaped o.data
    (((o.data.flatMap escJsonChar) ++ '"' :: tail).length + 1) tail hlen
  conv_lhs => whnf
  rw [hps]

theorem parseVal_env0 (o : String) (m : Nat) :
    parseVal m.succ.succ.succ.succ.succ.succ.succ
      (Char.ofNat 123 :: '"' :: 'o' :: 'u' :: 't' :: 'p' :: 'u' :: 't' :: '"' ::
        ':' :: '"' :: ((o.data.flatMap escJsonChar) ++ '"' :: ',' :: '"' :: 'm' ::
        'e' :: 't' :: 'a' :: 'd' :: 'a' :: 't' ::
          'a' :: '"' :: ':' ::
        Char.ofNat 123 :: '"' :: 'e' :: 'x' :: 'i' ::
          't' :: '_' ::
        'c' :: 'o' :: 'd' :: 'e' :: '"' :: ':' :: '0' :: ',' ::
          '"' ::
        'd' :: 'u' :: 'r' :: 'a' :: 't' :: 'i' :: 'o' :: 'n' ::
        '_' ::
          's' :: 'e' :: 'c' :: 'o' :: 'n' :: 'd' :: 's' :: '"' ::
        ':' :: '0' ::
          Char.ofNat 125 :: Char.ofNat 125 :: [])) =
    some (JVal.jobj [("output", JVal.jstr o), ("metadata", mkMeta 0)], []) := by
  conv_lhs => whnf
  rw [parseVal_jstr o m.succ.succ.succ.succ
    (',' :: '"' :: 'm' :: 'e' :: 't' :: 'a' :: 'd' :: 'a' :: 't' :: 'a' ::
        '"' :: ':' :: Char.ofNat 123 :: '"' :: 'e' :: 'x' :: 'i' :: 't' ::
        '_' :: 'c' :: 'o' :: 'd' :: 'e' :: '"' :: ':' :: '0' :: ',' :: '"' ::
        'd' :: 'u' :: 'r' :: 'a' :: 't' :: 'i' :: 'o' :: 'n' :: '_' :: 's' ::
        'e' :: 'c' :: 'o' :: 'n' :: 'd' :: 's' :: '"' :: ':' :: '0' ::
        Char.ofNat 125 :: Char.ofNat 125 :: [])]
  rfl

theorem parseVal_env1 (o : String) (m : Nat) :
    parseVal m.succ.succ.succ.succ.succ.succ.succ
      (Char.ofNat 123 :: '"' :: 'o' :: 'u' :: 't' :: 'p' :: 'u' :: 't' :: '"' ::
        ':' :: '"' :: ((o.data.flatMap escJsonChar) ++ '"' :: ',' :: '"' :: 'm' ::
        'e' :: 't' :: 'a' :: 'd' :: 'a' :: 't' ::
          'a' :: '"' :: ':' ::
        Char.ofNat 123 :: '"' :: 'e' :: 'x' :: 'i' ::
          't' :: '_' ::
        'c' :: 'o' :: 'd' :: 'e' :: '"' :: ':' :: '1' :: ',' ::
          '"' ::
        'd' :: 'u' :: 'r' :: 'a' :: 't' :: 'i' :: 'o' :: 'n' ::
        '_' ::
          's' :: 'e' :: 'c' :: 'o' :: 'n' :: 'd' :: 's' :: '"' ::
        ':' :: '0' ::
          Char.ofNat 125 :: Char.ofNat 125 :: [])) =
    some (JVal.jobj [("output", JVal.jstr o), ("metadata", mkMeta 1)], []) := by
  conv_lhs => whnf
  rw [parseVal_jstr o m.succ.succ.succ.succ
    (',' :: '"' :: 'm' :: 'e' :: 't' :: 'a' :: 'd' :: 'a' :: 't' :: 'a' ::
        '"' :: ':' :: Char.ofNat 123 :: '"' :: 'e' :: 'x' :: 'i' :: 't' ::
        '_' :: 'c' :: 'o' :: 'd' :: 'e' :: '"' :: ':' :: '1' :: ',' :: '"' ::
        'd' :: 'u' :: 'r' :: 'a' :: 't' :: 'i' :: 'o' :: 'n' :: '_' :: 's' ::
        'e' :: 'c' :: 'o' :: 'n' :: 'd' :: 's' :: '"' :: ':' :: '0' ::
        Char.ofNat 125 :: Char.ofNat 125 :: [])]
  rfl

theorem jsParse_envelope (o : String) (c : Int) (hc : c = 0 ∨ c = 1) :
    jsParse (jsonStringifyEnvelope o c) =
      some (JVal.jobj [("output", JVal.jstr o), ("metadata", mkMeta c)]) := by
  rcases hc with rfl | rfl
  ·
    have hdata : (jsonStringifyEnvelope o 0).data =
        Char.ofNat 123 :: '"' :: 'o' :: 'u' :: 't' :: 'p' :: 'u' :: 't' :: '"' ::
        ':' :: '"' :: ((o.data.flatMap escJsonChar) ++ '"' :: ',' :: '"' :: 'm' ::
        'e' :: 't' :: 'a' :: 'd' :: 'a' :: 't' ::
          'a' :: '"' :: ':' ::
        Char.ofNat 123 :: '"' :: 'e' :: 'x' :: 'i' ::
          't' :: '_' ::
        'c' :: 'o' :: 'd' :: 'e' :: '"' :: ':' :: '0' :: ',' ::
          '"' ::
        'd' :: 'u' :: 'r' :: 'a' :: 't' :: 'i' :: 'o' :: 'n' ::
        '_' ::
          's' :: 'e' :: 'c' :: 'o' :: 'n' :: 'd' :: 's' :: '"' ::
        ':' :: '0' ::
          Char.ofNat 125 :: Char.ofNat 125 :: []) := by
      simp only [jsonStringifyEnvelope, jsonStrLit, escJson, strData_append,
        show ("\x7b\"output\":".data : List Char) =
          Char.ofNat 123 :: '"' :: 'o' :: 'u' :: 't' :: 'p' :: 'u' :: 't' ::
        '"' :: ':' :: [] from rfl,
        show ("\"".data : List Char) = '"' :: [] from rfl,
        show (",\"metadata\":\x7b\"exit_code\":".data : List Char) =
          ',' :: '"' :: 'm' :: 'e' :: 't' :: 'a' :: 'd' :: 'a' :: 't' ::
        'a' :: '"' :: ':' :: Char.ofNat 123 :: '"' :: 'e' :: 'x' :: 'i' ::
        't' :: '_' :: 'c' :: 'o' :: 'd' :: 'e' :: '"' :: ':' :: [] from rfl,
        show ((intDec 0).data : List Char) = '0' :: [] from rfl,
        show (",\"duration_seconds\":0\x7d\x7d".data : List Char) =
          ',' :: '"' :: 'd' :: 'u' :: 'r' :: 'a' :: 't' :: 'i' :: 'o' ::
        'n' :: '_' :: 's' :: 'e' :: 'c' :: 'o' :: 'n' :: 'd' :: 's' ::
        '"' :: ':' :: '0' :: Char.ofNat 125 :: Char.ofNat 125 :: [] from rfl,
        show (String.mk (o.data.flatMap escJsonChar)).data =
          o.data.flatMap escJsonChar from rfl,
        List.cons_append, List.nil_append, List.append_assoc]
    have hfuel : 2 * strLen (jsonStringifyEnvelope o 0) + 8 =
        (2 * strLen (jsonStringifyEnvelope o 0) +
          1).succ.succ.succ.succ.succ.succ.succ := by omega
    simp only [jsParse]
    rw [hdata, hfuel,
      parseVal_env0 o (2 * strLen (jsonStringifyEnvelope o 0) + 1)]
    rfl
  ·
    have hdata : (jsonStringifyEnvelope o 1).data =
        Char.ofNat 123 :: '"' :: 'o' :: 'u' :: 't' :: 'p' :: 'u' :: 't' :: '"' ::
        ':' :: '"' :: ((o.data.flatMap escJsonChar) ++ '"' :: ',' :: '"' :: 'm' ::
        'e' :: 't' :: 'a' :: 'd' :: 'a' :: 't' ::
          'a' :: '"' :: ':' ::
        Char.ofNat 123 :: '"' :: 'e' :: 'x' :: 'i' ::
          't' :: '_' ::
        'c' :: 'o' :: 'd' :: 'e' :: '"' :: ':' :: '1' :: ',' ::
          '"' ::
        'd' :: 'u' :: 'r' :: 'a' :: 't' :: 'i' :: 'o' :: 'n' ::
        '_' ::
          's' :: 'e' :: 'c' :: 'o' :: 'n' :: 'd' :: 's' :: '"' ::
        ':' :: '0' ::
          Char.ofNat 125 :: Char.ofNat 125 :: []) := by
      simp only [jsonStringifyEnvelope, jsonStrLit, escJson, strData_append,
        show ("\x7b\"output\":".data : List Char) =
          Char.ofNat 123 :: '"' :: 'o' :: 'u' :: 't' :: 'p' :: 'u' :: 't' ::
        '"' :: ':' :: [] from rfl,
        show ("\"".data : List Char) = '"' :: [] from rfl,
        show (",\"metadata\":\x7b\"exit_code\":".data : List Char) =
          ',' :: '"' :: 'm' :: 'e' :: 't' :: 'a' :: 'd' :: 'a' :: 't' ::
        'a' :: '"' :: ':' :: Char.ofNat 123 :: '"' :: 'e' :: 'x' :: 'i' ::
        't' :: '_' :: 'c' :: 'o' :: 'd' :: 'e' :: '"' :: ':' :: [] from rfl,
        show ((intDec 1).data : List Char) = '1' :: [] from rfl,
        show (",\"duration_seconds\":0\x7d\x7d".data : List Char) =
          ',' :: '"' :: 'd' :: 'u' :: 'r' :: 'a' :: 't' :: 'i' :: 'o' ::
        'n' :: '_' :: 's' :: 'e' :: 'c' :: 'o' :: 'n' :: 'd' :: 's' ::
        '"' :: ':' :: '0' :: Char.ofNat 125 :: Char.ofNat 125 :: [] from rfl,
        show (String.mk (o.data.flatMap escJsonChar)).data =
          o.data.flatMap escJsonChar from rfl,
        List.cons_append, List.nil_append, List.append_assoc]
    have hfuel : 2 * strLen (jsonStringifyEnvelope o 1) + 8 =
        (2 * strLen (jsonStringifyEnvelope o 1) +
          1).succ.succ.succ.succ.succ.succ.succ := by omega
    simp only [jsParse]
    rw [hdata, hfuel,
      parseVal_env1 o (2 * strLen (jsonStringifyEnvelope o 1) + 1)]
    rfl

theorem parseToolCallOutput_envelope (o : String) (ho : o ≠ "") (c : Int)
    (hc : c = 0 ∨ c = 1) :
    parseToolCallOutput (jsonStringifyEnvelope o c) =
      { output := o, metadata := some (mkMeta c) } := by
  have hne : jsonStringifyEnvelope o c ≠ "" := by
    intro he
    have h2 : (jsonStringifyEnvelope o c).data.headD 'x' = Char.ofNat 123 := by
      rcases hc with rfl | rfl <;> rfl
    rw [he] at h2
    exact absurd h2 (by decide)
  simp only [parseToolCallOutput]
  rw [if_neg hne, jsParse_envelope o c hc]
  have ht : jvalTruthy (JVal.jstr o) = true := by
    simp [jvalTruthy, ho]
  show ({ output := jsOutCoerce (some (JVal.jstr o)),
          metadata := some (mkMeta c) } : ToolParsed) = _
  simp only [jsOutCoerce, ht, if_true]
  rfl

theorem applyPatch_exit01 (st : PState) (rem : Remote) (p : String)
    (r : ExecResult) (st1 : PState) (evs : List Ev)
    (h : applyPatch st rem p = Except.ok (r, st1, evs)) :
    r.exitCode = 0 ∨ r.exitCode = 1 := by
  unfold applyPatch at h
  by_cases hi : st.initialized = false
  · rw [if_pos hi] at h
    exact absurd h (by simp)
  · rw [if_neg hi] at h
    dsimp only at h
    by_cases hm : ¬ (startsWithStr
        ((splitOnChar (Char.ofNat 10) (jsTrim p)).headD "") "*** Begin Patch" ∧
        (splitOnChar (Char.ofNat 10) (jsTrim p)).getLastD "" = "*** End Patch")
    · rw [if_pos hm] at h
      simp only [Except.ok.injEq, Prod.mk.injEq] at h
      obtain ⟨h1, -, -⟩ := h
      right
      rw [← h1]
    · rw [if_neg hm] at h
      rcases hp : processPatches st rem (splitOnChar (Char.ofNat 10) (jsTrim p))
        with ⟨out, stx, evsx⟩
      rw [hp] at h
      simp only [Except.ok.injEq, Prod.mk.injEq] at h
      obtain ⟨h1, -, -⟩ := h
      left
      rw [← h1]

/-- C10: `execApplyPatch` wraps the inner `applyPatch` result in the JSON
envelope `\x7boutput, metadata: \x7bexit_code, duration_seconds\x7d\x7d` with
`metadata.exit_code` equal to the inner exit code and `output` equal to the
inner stdout when non-empty (else the patch text, else the fixed success
message), and `parseToolCallOutput` on that stdout round-trips, recovering
exactly that output and exit code. -/
theorem execApplyPatch_roundtrip (st : PState) (rem : Remote)
    (patchText : String) (inner : ExecResult) (st1 : PState) (evs : List Ev)
    (h : applyPatch st rem patchText = Except.ok (inner, st1, evs)) :
    execApplyPatch st rem patchText = Except.ok
      ({ stdout := jsonStringifyEnvelope
            (if inner.stdout ≠ "" then inner.stdout
             else if patchText ≠ "" then patchText
             else "Patch applied successfully") inner.exitCode,
         stderr := inner.stderr, exitCode := inner.exitCode }, st1, evs) ∧
    parseToolCallOutput (jsonStringifyEnvelope
        (if inner.stdout ≠ "" then inner.stdout
         else if patchText ≠ "" then patchText
         else "Patch applied successfully") inner.exitCode) =
      { output := (if inner.stdout ≠ "" then inner.stdout
                   else if patchText ≠ "" then patchText
                   else "Patch applied successfully"),
        metadata := some (mkMeta inner.exitCode) } := by
  constructor
  · unfold execApplyPatch
    rw [h]
  · refine parseToolCallOutput_envelope _ ?_ _
      (applyPatch_exit01 st rem patchText inner st1 evs h)
    by_cases h1 : inner.stdout = "" <;> by_cases h2 : patchText = "" <;>
      simp [h1, h2]

theorem execApplyPatch_roundtrip_witness :
    execApplyPatch sampleState remoteAllOk "*** Begin Patch\n*** End Patch" =
      Except.ok
      ({ stdout := jsonStringifyEnvelope
            (if ({ stdout := "Patch applied successfully", stderr := "", exitCode := 0 } : ExecResult).stdout ≠ "" then
               ({ stdout := "Patch applied successfully", stderr := "", exitCode := 0 } : ExecResult).stdout
             else if ("*** Begin Patch\n*** End Patch" : String) ≠ "" then
               "*** Begin Patch\n*** End Patch"
             else "Patch applied successfully")
            ({ stdout := "Patch applied successfully", stderr := "", exitCode := 0 } : ExecResult).exitCode,
         stderr := "", exitCode := 0 }, sampleState, []) ∧
    parseToolCallOutput (jsonStringifyEnvelope
        (if ({ stdout := "Patch applied successfully", stderr := "", exitCode := 0 } : ExecResult).stdout ≠ "" then
           ({ stdout := "Patch applied successfully", stderr := "", exitCode := 0 } : ExecResult).stdout
         else if ("*** Begin Patch\n*** End Patch" : String) ≠ "" then
           "*** Begin Patch\n*** End Patch"
         else "Patch applied successfully")
        ({ stdout := "Patch applied successfully", stderr := "", exitCode := 0 } : ExecResult).exitCode) =
      { output := (if ({ stdout := "Patch applied successfully", stderr := "", exitCode := 0 } : ExecResult).stdout ≠ "" then
                     ({ stdout := "Patch applied successfully", stderr := "", exitCode := 0 } : ExecResult).stdout
                   else if ("*** Begin Patch\n*** End Patch" : String) ≠ ""
                   then "*** Begin Patch\n*** End Patch"
                   else "Patch applied successfully"),
        metadata := some (mkMeta ({ stdout := "Patch applied successfully", stderr := "", exitCode := 0 } : ExecResult).exitCode) } :=
  execApplyPatch_roundtrip sampleState remoteAllOk
    "*** Begin Patch\n*** End Patch"
    { stdout := "Patch applied successfully", stderr := "", exitCode := 0 }
    sampleState [] rfl

theorem stringMk_data (s : String) : String.mk s.data = s := by
  cases s
  rfl

theorem splitCharsOn_ne_nil (sep : Char) (l : List Char) :
    splitCharsOn sep l ≠ [] := by
  induction l with
  | nil => simp [splitCharsOn]
  | cons c rest ih =>
    rcases h : splitCharsOn sep rest with _ | ⟨r, rs⟩
    · exact absurd h ih
    · by_cases hc : c = sep <;> simp [splitCharsOn, h, hc]

theorem splitCharsOn_append_sep (sep : Char) (a b : List Char) :
    splitCharsOn sep (a ++ sep :: b) =
      splitCharsOn sep a ++ splitCharsOn sep b := by
  induction a with
  | nil =>
    rcases h : splitCharsOn sep b with _ | ⟨r, rs⟩
    · exact absurd h (splitCharsOn_ne_nil sep b)
    · simp [splitCharsOn, h]
  | cons c a2 ih =>
    rcases h : splitCharsOn sep a2 with _ | ⟨r, rs⟩
    · exact absurd h (splitCharsOn_ne_nil sep a2)
    · by_cases hc : c = sep <;>
        simp [splitCharsOn, ih, h, hc]

theorem splitCharsOn_no_sep (sep : Char) (l : List Char) :
    ∀ p ∈ splitCharsOn sep l, sep ∉ p := by
  induction l with
  | nil =>
    intro p hp
    simp [splitCharsOn] at hp
    simp [hp]
  | cons c rest ih =>
    intro p hp
    rcases h : splitCharsOn sep rest with _ | ⟨r, rs⟩
    · exact absurd h (splitCharsOn_ne_nil sep rest)
    · by_cases hc : c = sep
      · rw [splitCharsOn, h] at hp
        dsimp only at hp
        rw [if_pos hc] at hp
        rcases List.mem_cons.mp hp with h1 | h1
        · simp [h1]
        · exact ih p (h ▸ h1)
      · rw [splitCharsOn, h] at hp
        dsimp only at hp
        rw [if_neg hc] at hp
        rcases List.mem_cons.mp hp with h1 | h1
        · subst h1
          intro hmem
          rcases List.mem_cons.mp hmem with h2 | h2
          · exact hc h2.symm
          · exact ih r (h ▸ List.mem_cons_self r rs) h2
        · exact ih p (h ▸ List.mem_cons_of_mem r h1)

theorem splitCharsOn_of_no_sep (sep : Char) (l : List Char)
    (h : sep ∉ l) : splitCharsOn sep l = [l] := by
  induction l with
  | nil => simp [splitCharsOn]
  | cons c rest ih =>
    have hc : ¬ c = sep := fun he => h (he ▸ List.mem_cons_self c rest)
    have hr : sep ∉ rest := fun hm => h (List.mem_cons_of_mem c hm)
    simp [splitCharsOn, ih hr, hc]

theorem mem_splitPath_props (p : String) (c : String) (h : c ∈ splitPath p) :
    c ≠ "" ∧ '/' ∉ c.data := by
  unfold splitPath at h
  rcases List.mem_filter.mp h with ⟨hmem, hpred⟩
  rcases List.mem_map.mp hmem with ⟨piece, hpiece, rfl⟩
  refine ⟨by simpa using hpred, ?_⟩
  exact splitCharsOn_no_sep '/' p.data piece hpiece

theorem splitPath_data_append (p : String) (a b : List Char)
    (hp : p.data = a ++ '/' :: b) :
    splitPath p = splitPath (String.mk a) ++ splitPath (String.mk b) := by
  unfold splitPath
  rw [hp]
  show ((splitCharsOn '/' (a ++ '/' :: b)).map String.mk).filter _ = _
  rw [splitCharsOn_append_sep, List.map_append, List.filter_append]

theorem foldl_normStep_clean (L : List String) : ∀ S : List String,
    (∀ c ∈ L, c ≠ "..") →
    L.foldl normStep S = S ++ L.filter (fun c => ¬ (c = "." ∨ c = "")) := by
  induction L with
  | nil => intro S _; simp
  | cons c t ih =>
    intro S h
    have hc2 : c ≠ ".." := h c (List.mem_cons_self c t)
    have ht : ∀ x ∈ t, x ≠ ".." := fun x hx => h x (List.mem_cons_of_mem c hx)
    by_cases hc : c = "." ∨ c = ""
    · rw [List.foldl_cons, show normStep S c = S from by simp [normStep, hc],
        ih S ht, List.filter_cons]
      simp [hc]
    · rw [List.foldl_cons,
        show normStep S c = S ++ [c] from by simp [normStep, hc, hc2],
        ih (S ++ [c]) ht, List.filter_cons]
      simp [hc]
  
theorem normParts_clean (L : List String) (h : ∀ c ∈ L, c ≠ "..") :
    normParts L = L.filter (fun c => ¬ (c = "." ∨ c = "")) := by
  unfold normParts
  rw [foldl_normStep_clean L [] h, List.nil_append]

theorem commonPrefLen_self_append (F R : List String) :
    commonPrefLen F (F ++ R) = F.length := by
  induction F with
  | nil => rfl
  | cons x xs ih => simp [commonPrefLen, ih]

theorem joinSlash_append (A B : List String) (hA : A ≠ []) (hB : B ≠ []) :
    joinSlash (A ++ B) = joinSlash A ++ "/" ++ joinSlash B := by
  induction A with
  | nil => exact absurd rfl hA
  | cons x xs ih =>
    rcases xs with _ | ⟨y, ys⟩
    · rcases B with _ | ⟨b, bs⟩
      · exact absurd rfl hB
      · rfl
    · rw [List.cons_append, show joinSlash (x :: (y :: ys ++ B)) =
          x ++ "/" ++ joinSlash (y :: ys ++ B) from rfl,
        ih (by simp), show joinSlash (x :: y :: ys) =
          x ++ "/" ++ joinSlash (y :: ys) from rfl]
      simp [String.append_assoc]

theorem splitPath_joinSlash (R : List String)
    (h : ∀ c ∈ R, c ≠ "" ∧ '/' ∉ c.data) :
    splitPath (joinSlash R) = R := by
  induction R with
  | nil => rfl
  | cons c t ih =>
    rcases h c (List.mem_cons_self c t) with ⟨hne, hsl⟩
    have ht : ∀ x ∈ t, x ≠ "" ∧ '/' ∉ x.data :=
      fun x hx => h x (List.mem_cons_of_mem c hx)
    rcases t with _ | ⟨y, ys⟩
    · show splitPath c = [c]
      unfold splitPath
      rw [splitCharsOn_of_no_sep '/' c.data hsl]
      simp [hne, stringMk_data]
    · rw [show joinSlash (c :: y :: ys) = c ++ "/" ++ joinSlash (y :: ys)
          from rfl]
      rw [splitPath_data_append (c ++ "/" ++ joinSlash (y :: ys)) c.data
          (joinSlash (y :: ys)).data
          (by rw [strData_append, strData_append]; simp),
        stringMk_data, stringMk_data, ih ht]
      have h1 : splitPath c = [c] := by
        unfold splitPath
        rw [splitCharsOn_of_no_sep '/' c.data hsl]
        simp [hne, stringMk_data]
      rw [h1]
      rfl

theorem flatMap_splitPath_id (parts : List String)
    (h : ∀ c ∈ parts, c ≠ "" ∧ '/' ∉ c.data) :
    parts.flatMap splitPath = parts := by
  induction parts with
  | nil => rfl
  | cons c t ih =>
    rcases h c (List.mem_cons_self c t) with ⟨hne, hsl⟩
    have ht : ∀ x ∈ t, x ≠ "" ∧ '/' ∉ x.data :=
      fun x hx => h x (List.mem_cons_of_mem c hx)
    rw [List.flatMap_cons, ih ht]
    have h1 : splitPath c = [c] := by
      unfold splitPath
      rw [splitCharsOn_of_no_sep '/' c.data hsl]
      simp [hne, stringMk_data]
    rw [h1]
    rfl

theorem startsWithStr_append_right (r x : String) :
    startsWithStr (r ++ x) r = true := by
  unfold startsWithStr
  rw [strData_append]
  exact chPfx_append r.data x.data

theorem startsWithStr_refl (r : String) : startsWithStr r r = true := by
  have h := startsWithStr_append_right r ""
  rwa [strAppendEmpty] at h

theorem splitPath_filter_id (r : String) :
    (splitPath r).filter (fun c => ¬ (c = "." ∨ c = "")) =
      (splitPath r).filter (fun c => c ≠ ".") := by
  apply List.filter_congr
  intro c hc
  have h1 := (mem_splitPath_props r c hc).1
  simp [h1]

theorem pJoinParts_prefix (rootDir : String) (X : List String)
    (hr : cleanAbsDir rootDir) (hX : ∀ c ∈ X, c ≠ "..") :
    startsWithStr ("/" ++ joinSlash (normParts (splitPath rootDir ++ X)))
      rootDir = true := by
  obtain ⟨h1, h2, h3⟩ := hr
  have hRDfilter : (splitPath rootDir).filter
      (fun c => ¬ (c = "." ∨ c = "")) = splitPath rootDir := by
    apply List.filter_eq_self.mpr
    intro c hc
    have hne := (mem_splitPath_props rootDir c hc).1
    have hcl := List.all_eq_true.mp h2 c hc
    simp only [cleanComp] at hcl
    have := of_decide_eq_true hcl
    simp [hne]
    intro hdot
    exact absurd (Or.inl hdot) this
  have hRDclean : ∀ c ∈ splitPath rootDir, c ≠ ".." := by
    intro c hc
    have hcl := List.all_eq_true.mp h2 c hc
    simp only [cleanComp] at hcl
    have := of_decide_eq_true hcl
    intro hdd
    exact absurd (Or.inr hdd) this
  have hnorm : normParts (splitPath rootDir ++ X) =
      splitPath rootDir ++ X.filter (fun c => ¬ (c = "." ∨ c = "")) := by
    unfold normParts
    rw [List.foldl_append,
      show List.foldl normStep [] (splitPath rootDir) =
        normParts (splitPath rootDir) from rfl,
      normParts_clean (splitPath rootDir) hRDclean, hRDfilter,
      foldl_normStep_clean X (splitPath rootDir) hX]
  rw [hnorm]
  rcases hX2 : X.filter (fun c => ¬ (c = "." ∨ c = "")) with _ | ⟨x, xs⟩
  · rw [List.append_nil, ← h1]
    exact startsWithStr_refl rootDir
  · rw [joinSlash_append (splitPath rootDir) (x :: xs) h3 (by simp)]
    rw [show ("/" ++ (joinSlash (splitPath rootDir) ++ "/" ++
        joinSlash (x :: xs)) : String) =
      ("/" ++ joinSlash (splitPath rootDir)) ++
        ("/" ++ joinSlash (x :: xs)) from by
      simp [String.append_assoc]]
    rw [← h1]
    exact startsWithStr_append_right rootDir ("/" ++ joinSlash (x :: xs))

theorem calculateRemotePath_ok (rootDir homeDir p : String)
    (hr : cleanAbsDir rootDir) (hg : goodHostPath homeDir p) :
    startsWithStr (calculateRemotePath rootDir homeDir p) rootDir = true ∨
    (pIsAbsolute (calculateRemotePath rootDir homeDir p) = true ∧
     strContains (calculateRemotePath rootDir homeDir p) "/home/daytona" =
       true) := by
  obtain ⟨hgAll, hgAlign⟩ := hg
  have hpClean : ∀ c ∈ splitPath p, c ≠ ".." := by
    intro c hc
    have h := List.all_eq_true.mp hgAll c hc
    simpa using h
  have hjoin : ∀ q : List String, (∀ c ∈ q.flatMap splitPath, c ≠ "..") →
      startsWithStr (pJoinParts rootDir q) rootDir = true := by
    intro q hq
    exact pJoinParts_prefix rootDir (q.flatMap splitPath) hr hq
  have hjoinp : startsWithStr (pJoin rootDir p) rootDir = true := by
    apply hjoin [p]
    intro c hc
    apply hpClean c
    simpa using hc
  unfold calculateRemotePath
  by_cases hA : ¬ pIsAbsolute p = true ∧ ¬ strContains p "/" = true ∧
      ¬ strContains p "\\" = true
  · rw [if_pos hA]
    exact Or.inl hjoinp
  · rw [if_neg hA]
    by_cases hB : pIsAbsolute p = true
    · rw [if_pos hB]
      by_cases hC : startsWithStr p homeDir = true
      · rw [if_pos hC]
        rcases hgAlign hC with heq | ⟨rest, hrest⟩
        · rw [heq]
          have hc0 : commonPrefLen (normParts (splitPath homeDir))
              (normParts (splitPath homeDir)) =
              (normParts (splitPath homeDir)).length := by
            have h := commonPrefLen_self_append
              (normParts (splitPath homeDir)) []
            rwa [List.append_nil] at h
          have hrel : pRelative homeDir homeDir = "" := by
            unfold pRelative
            dsimp only
            rw [hc0, Nat.sub_self, List.replicate_zero, List.drop_length,
              List.nil_append]
            rfl
          rw [hrel]
          refine Or.inl (hjoin [""] ?_)
          intro c hc
          rw [show (([""] : List String).flatMap splitPath) = [] from rfl] at hc
          exact absurd hc (List.not_mem_nil c)
        · have hsplitp : splitPath p =
              splitPath homeDir ++ splitPath (String.mk rest) := by
            have h := splitPath_data_append p homeDir.data rest hrest
            rwa [stringMk_data] at h
          have hRclean : ∀ c ∈ splitPath (String.mk rest), c ≠ ".." := by
            intro c hc
            exact hpClean c (hsplitp ▸ List.mem_append_right _ hc)
          have hnormp : normParts (splitPath p) =
              normParts (splitPath homeDir) ++
                (splitPath (String.mk rest)).filter
                  (fun c => ¬ (c = "." ∨ c = "")) := by
            rw [hsplitp]
            unfold normParts
            rw [List.foldl_append]
            exact foldl_normStep_clean (splitPath (String.mk rest))
              (List.foldl normStep [] (splitPath homeDir)) hRclean
          have hrel : pRelative homeDir p =
              joinSlash ((splitPath (String.mk rest)).filter
                (fun c => ¬ (c = "." ∨ c = ""))) := by
            unfold pRelative
            dsimp only
            rw [hnormp, commonPrefLen_self_append, Nat.sub_self,
              List.replicate_zero, List.drop_left, List.nil_append]
          rw [hrel]
          have hR1props : ∀ c ∈ (splitPath (String.mk rest)).filter
              (fun c => ¬ (c = "." ∨ c = "")), c ≠ "" ∧ '/' ∉ c.data := by
            intro c hc
            exact mem_splitPath_props (String.mk rest) c
              (List.mem_of_mem_filter hc)
          refine Or.inl (hjoin [joinSlash ((splitPath (String.mk rest)).filter
            (fun c => ¬ (c = "." ∨ c = "")))] ?_)
          intro c hc
          rw [show ([joinSlash ((splitPath (String.mk rest)).filter
              (fun c => ¬ (c = "." ∨ c = "")))].flatMap splitPath) =
            splitPath (joinSlash ((splitPath (String.mk rest)).filter
              (fun c => ¬ (c = "." ∨ c = "")))) from by simp] at hc
          rw [splitPath_joinSlash _ hR1props] at hc
          exact hRclean c (List.mem_of_mem_filter hc)
      · rw [if_neg hC]
        dsimp only
        by_cases hD : strContains p "/home/daytona" = true
        · rw [if_pos hD]
          exact Or.inr ⟨hB, hD⟩
        · rw [if_neg hD]
          refine Or.inl (hjoin _ ?_)
          intro c hc
          rcases List.mem_flatMap.mp hc with ⟨d, hd, hcd⟩
          have hdmem : d ∈ splitPath p := by
            revert hd
            unfold jsSlice
            split
            · exact fun hd => List.mem_of_mem_drop hd
            · exact fun hd => List.mem_of_mem_drop hd
          have hdprops := mem_splitPath_props p d hdmem
          have hds : splitPath d = [d] := by
            unfold splitPath
            rw [splitCharsOn_of_no_sep '/' d.data hdprops.2]
            simp [hdprops.1, stringMk_data]
          rw [hds] at hcd
          rcases List.mem_singleton.mp hcd with rfl
          exact hpClean c hdmem
    · rw [if_neg hB]
      exact Or.inl hjoinp

theorem mem_mapSet (m : List (String × String)) (k v : String)
    (e : String × String) (h : e ∈ mapSet m k v) : e ∈ m ∨ e = (k, v) := by
  unfold mapSet at h
  by_cases ha : m.any (fun q => q.1 = k) = true
  · rw [if_pos ha] at h
    rcases List.mem_map.mp h with ⟨a, hmem, heq⟩
    by_cases hak : a.1 = k
    · rw [if_pos hak] at heq
      exact Or.inr heq.symm
    · rw [if_neg hak] at heq
      exact Or.inl (heq ▸ hmem)
  · rw [if_neg ha] at h
    rcases List.mem_append.mp h with h1 | h1
    · exact Or.inl h1
    · exact Or.inr (List.mem_singleton.mp h1)

/-- C3 (corrected): for host paths without `..` components whose string-prefix
match with the host home directory is path-aligned, one `mapPath` call on an
initialized provider with a normalized absolute `rootDir` preserves invariant
I5 — every cached entry maps to a path beginning with `rootDir` or is a
pass-through absolute path containing `/home/daytona` — and the returned
mapping satisfies it as well; `rootDir` and `homeDir` are unchanged, so the
preservation extends to any sequence of such calls (every cache write of
`exec`, `uploadFile` and `applyPatch` goes through `mapPath`). -/
theorem mapPath_cache_inv_amended (st : PState) (p r : String) (st1 : PState)
    (hroot : cleanAbsDir st.rootDir) (hgood : goodHostPath st.homeDir p)
    (hinv : pathCacheInv st) (h : mapPath st p = Except.ok (r, st1)) :
    pathCacheInv st1 ∧ st1.rootDir = st.rootDir ∧ st1.homeDir = st.homeDir ∧
      cacheEntryOk st.rootDir (p, r) := by
  unfold mapPath at h
  by_cases hi : ¬ (st.initialized = true) ∨ st.rootDir = ""
  · rw [if_pos hi] at h
    exact absurd h (by simp)
  · rw [if_neg hi] at h
    rcases hm : mapGet st.pathCache p with _ | r0
    · rw [hm] at h
      dsimp only at h
      simp only [Except.ok.injEq, Prod.mk.injEq] at h
      obtain ⟨h1, h2⟩ := h
      subst h1
      subst h2
      have hok := calculateRemotePath_ok st.rootDir st.homeDir p hroot hgood
      refine ⟨?_, rfl, rfl, ?_⟩
      · intro e he
        rcases mem_mapSet st.pathCache p
          (calculateRemotePath st.rootDir st.homeDir p) e he with hold | hnew
        · exact hinv e hold
        · subst hnew
          exact hok
      · exact hok
    · rw [hm] at h
      simp only [Except.ok.injEq, Prod.mk.injEq] at h
      obtain ⟨h1, h2⟩ := h
      subst h1
      subst h2
      refine ⟨hinv, rfl, rfl, ?_⟩
      unfold mapGet at hm
      rcases hfind : st.pathCache.find? (fun q => q.1 = p) with _ | e0
      · rw [hfind] at hm
        simp at hm
      · rw [hfind] at hm
        simp at hm
        have hmem := List.mem_of_find?_eq_some hfind
        have hok := hinv e0 hmem
        unfold cacheEntryOk at hok ⊢
        rw [← hm]
        exact hok

theorem mapPath_cache_inv_amended_witness :
    pathCacheInv { sampleState with
      pathCache := [("notes.txt", "/home/daytona/notes.txt")] } ∧
    ({ sampleState with
      pathCache := [("notes.txt", "/home/daytona/notes.txt")] } : PState).rootDir =
      sampleState.rootDir ∧
    ({ sampleState with
      pathCache := [("notes.txt", "/home/daytona/notes.txt")] } : PState).homeDir =
      sampleState.homeDir ∧
    cacheEntryOk sampleState.rootDir ("notes.txt", "/home/daytona/notes.txt") :=
  mapPath_cache_inv_amended sampleState "notes.txt" "/home/daytona/notes.txt"
    { sampleState with pathCache := [("notes.txt", "/home/daytona/notes.txt")] }
    (by unfold cleanAbsDir; exact ⟨by decide, by decide, by decide⟩)
    (by unfold goodHostPath; exact ⟨by decide, fun hsw => absurd hsw (by decide)⟩)
    (fun e he => absurd he (List.not_mem_nil e))
    rfl
